import Mathlib

/-!
Verification of the emissions-dashboard aggregation/query layer.

The repository consists of a Cloudflare Worker API (`emissions-api/src/index.js`)
issuing SQL queries against a SQLite (D1) store whose schema is `schema.sql`,
an in-memory mock client (`src/api/mockApi.js`), and a CSV-to-SQL import script
(`scripts/etl.cjs`).  Each operation is embedded below as a pure function over a
list-based model of the two tables; SQLite REAL values are modelled as ℚ and
nullable columns as `Option`.
-/

namespace Dash

/-- ASCII lower-casing as SQLite's default `LIKE` folding performs it:
only the 26 ASCII upper-case letters are folded. -/
def asciiLower (c : Char) : Char :=
  if 'A' ≤ c ∧ c ≤ 'Z' then Char.ofNat (c.toNat + 32) else c

/-- SQLite `LIKE` pattern matching (default behaviour, no ESCAPE clause):
`%` matches any sequence, `_` matches any single character, and ordinary
characters compare case-insensitively for ASCII. -/
def likeMatch : List Char → List Char → Bool
  | [], [] => true
  | [], _ :: _ => false
  | p :: ps, [] => if p = '%' then likeMatch ps [] else false
  | p :: ps, c :: s =>
    if p = '%' then likeMatch ps (c :: s) || likeMatch (p :: ps) s
    else (p = '_' || asciiLower p == asciiLower c) && likeMatch ps s
termination_by p s => p.length + s.length

/-- Case-insensitive (ASCII) leading-segment match: `q` matches the start of `s`. -/
def leadMatchCI : List Char → List Char → Bool
  | [], _ => true
  | _ :: _, [] => false
  | a :: q, b :: s => asciiLower a == asciiLower b && leadMatchCI q s

/-- Case-insensitive (ASCII) substring occurrence: `q` occurs somewhere in `s`. -/
def hasSegCI (q : List Char) : List Char → Bool
  | [] => leadMatchCI q []
  | c :: s => leadMatchCI q (c :: s) || hasSegCI q s

/-- Case-sensitive leading-segment match. -/
def leadMatch : List Char → List Char → Bool
  | [], _ => true
  | _ :: _, [] => false
  | a :: q, b :: s => a == b && leadMatch q s

/-- Case-sensitive substring occurrence (the spec's "case-sensitive substring"). -/
def hasSegment (q : List Char) : List Char → Bool
  | [] => leadMatch q []
  | c :: s => leadMatch q (c :: s) || hasSegment q s

/-- A pattern fragment free of the `LIKE` metacharacters `%` and `_`. -/
def WildcardFree (q : List Char) : Prop := ∀ c ∈ q, c ≠ '%' ∧ c ≠ '_'

instance (q : List Char) : Decidable (WildcardFree q) :=
  inferInstanceAs (Decidable (∀ c ∈ q, c ≠ '%' ∧ c ≠ '_'))

/-- A row of the `companies` table (schema.sql). -/
structure Company where
  id : Nat
  name : String
  sector : String
  region : String
  ownership : String
  baseline_year : Int
  net_zero_year : Int
  interim_target_year : Option Int := none
  interim_reduction_percent : Option Int := none
deriving DecidableEq, Repr

/-- A row of the `emissions` table; REAL columns modelled as ℚ, the nullable
`scope_2` as an `Option`. -/
structure Emission where
  id : Nat
  company_id : Nat
  year : Int
  scope_1 : ℚ
  scope_2 : Option ℚ
  scope_3 : ℚ
deriving DecidableEq, Repr

/-- The relational store: the two tables. -/
structure Db where
  companies : List Company
  emissions : List Emission
deriving Repr

/-- The derived total `scope_1 + COALESCE(scope_2, 0) + scope_3` used by every query. -/
def Emission.total (e : Emission) : ℚ := e.scope_1 + e.scope_2.getD 0 + e.scope_3

/-- The constraints schema.sql enforces: primary-key ids, `name UNIQUE`,
`UNIQUE(company_id, year)`, and the foreign key from emissions to companies. -/
structure ValidDb (db : Db) : Prop where
  ids_nodup : (db.companies.map Company.id).Nodup
  names_nodup : (db.companies.map Company.name).Nodup
  pair_nodup : (db.emissions.map (fun e => (e.company_id, e.year))).Nodup
  fk : ∀ e ∈ db.emissions, ∃ c ∈ db.companies, c.id = e.company_id

namespace Api

/-- `SELECT * FROM companies WHERE name = ?` followed by `.first()`
(index.js, GET /api/companies/:name and /peers). -/
def findCompany (db : Db) (name : String) : Option Company :=
  db.companies.find? (fun c => c.name == name)

/-- The emission rows of one company, before ORDER BY. -/
def companyEmissions (db : Db) (cid : Nat) : List Emission :=
  db.emissions.filter (fun e => e.company_id == cid)

/-- An output row of the emissions query of GET /api/companies/:name. -/
structure EmissionRowOut where
  year : Int
  scope_1 : ℚ
  scope_2 : Option ℚ
  scope_3 : ℚ
  total : ℚ
deriving DecidableEq, Repr

/-- The SELECT projection of the emissions query: the four columns plus the
derived total. -/
def toRowOut (e : Emission) : EmissionRowOut :=
  { year := e.year, scope_1 := e.scope_1, scope_2 := e.scope_2,
    scope_3 := e.scope_3, total := e.total }

/-- `SELECT year, scope_1, scope_2, scope_3,
(scope_1 + COALESCE(scope_2,0) + scope_3) AS total FROM emissions
WHERE company_id = ? ORDER BY year`. -/
def emissionsQuery (db : Db) (cid : Nat) : List EmissionRowOut :=
  ((companyEmissions db cid).mergeSort (fun a b => a.year ≤ b.year)).map toRowOut

/-- JavaScript `x || null` applied to an optional numeric: `0` is falsy,
so a present value of 0 collapses to null. -/
def orNull (x : Option ℚ) : Option ℚ :=
  match x with
  | none => none
  | some t => if t = 0 then none else some t

/-- The `summary` object of GET /api/companies/:name. -/
structure Summary where
  total_records : Nat
  baseline_emissions : Option ℚ
  latest_emissions : Option ℚ
deriving DecidableEq, Repr

/-- The success payload of GET /api/companies/:name. -/
structure CompanyDetail where
  company : Company
  emissions : List EmissionRowOut
  summary : Summary
deriving DecidableEq, Repr

/-- GET /api/companies/:name handler core; `none` is the 404 branch.
`baseline_emissions` is `emissions.find(e => e.year == company.baseline_year)?.total || null`
and `latest_emissions` is `emissions[emissions.length - 1]?.total || null`. -/
def getCompanyDetail (db : Db) (name : String) : Option CompanyDetail :=
  match findCompany db name with
  | none => none
  | some company =>
    let emissions := emissionsQuery db company.id
    some { company := company,
           emissions := emissions,
           summary :=
             { total_records := emissions.length,
               baseline_emissions :=
                 orNull ((emissions.find? (fun e => e.year == company.baseline_year)).map
                   EmissionRowOut.total),
               latest_emissions := orNull (emissions.getLast?.map EmissionRowOut.total) } }

/-- `companies c JOIN emissions e ON c.id = e.company_id`: each emission row is
paired with its company found by id (unique under the primary key, which the
SQL multiset semantics relies on). -/
def joinRows (db : Db) : List (Company × Emission) :=
  db.emissions.filterMap
    (fun e => (db.companies.find? (fun c => c.id == e.company_id)).map (fun c => (c, e)))

/-- One element of the `companies` array returned by GET /api/companies/:name/peers.
The current-company row carries no region column in the SQL, hence the `Option`. -/
structure PeerRow where
  name : String
  sector : String
  region : Option String
  total_emissions : ℚ
  year : Int
  is_current_company : Bool
deriving DecidableEq, Repr

/-- The current-company query of the peers handler:
`... FROM companies c JOIN emissions e ON c.id = e.company_id
WHERE c.name = ? AND e.year = ?`, followed by `.first()`. -/
def currentCompanyEmissions (db : Db) (name : String) (year : Int) : Option PeerRow :=
  (((joinRows db).filter (fun r => r.1.name == name && r.2.year == year)).map
    (fun r => { name := name, sector := r.1.sector, region := none,
                total_emissions := r.2.total, year := r.2.year,
                is_current_company := true : PeerRow })).head?

/-- The SELECT projection of the peer query (is_current_company fixed at 0). -/
def toPeerRow (r : Company × Emission) : PeerRow :=
  { name := r.1.name, sector := r.1.sector, region := some r.1.region,
    total_emissions := r.2.total, year := r.2.year, is_current_company := false }

/-- The peer query of the peers handler:
`... WHERE c.sector = ? AND c.name != ? AND e.year = ? ORDER BY RANDOM() LIMIT ?`;
`shuffle` models ORDER BY RANDOM() and is assumed to permute its input. -/
def peersQuery (db : Db) (sector name : String) (year : Int) (limit : Nat)
    (shuffle : List (Company × Emission) → List (Company × Emission)) : List PeerRow :=
  ((shuffle ((joinRows db).filter
      (fun r => r.1.sector == sector && r.1.name != name && r.2.year == year))).take
    limit).map toPeerRow

/-- The success payload of GET /api/companies/:name/peers. -/
structure PeersResp where
  year : Int
  sector : String
  companies : List PeerRow
deriving DecidableEq, Repr

/-- GET /api/companies/:name/peers handler core; `none` is the 404 branch.
The route defaults are limit 5 and the current calendar year, applied by the
caller of this function. -/
def getPeers (db : Db) (name : String) (limit : Nat) (year : Int)
    (shuffle : List (Company × Emission) → List (Company × Emission)) : Option PeersResp :=
  match findCompany db name with
  | none => none
  | some company =>
    let peers := peersQuery db company.sector name year limit shuffle
    let allCompanies :=
      match currentCompanyEmissions db name year with
      | some cur => cur :: peers
      | none => peers
    some { year := year, sector := company.sector, companies := allCompanies }

/-- One output row of GET /api/sectors (key = sector) or GET /api/regions
(key = region). -/
structure GroupRow where
  key : String
  company_count : Nat
  total_scope_1 : ℚ
  total_scope_2 : ℚ
  total_scope_3 : ℚ
  total_emissions : ℚ
  avg_emissions : ℚ
deriving DecidableEq, Repr

/-- The joined rows restricted by `WHERE e.year = ?`. -/
def yearRows (db : Db) (year : Int) : List (Company × Emission) :=
  (joinRows db).filter (fun r => r.2.year == year)

/-- One GROUP BY group: `COUNT(DISTINCT c.id)`, the four SUMs and the AVG
(SQL AVG = sum of the expression over the group divided by the row count). -/
def groupRow (rows : List (Company × Emission)) (key : Company → String) (k : String) :
    GroupRow :=
  let g := rows.filter (fun r => key r.1 == k)
  { key := k,
    company_count := ((g.map (fun r => r.1.id)).dedup).length,
    total_scope_1 := (g.map (fun r => r.2.scope_1)).sum,
    total_scope_2 := (g.map (fun r => r.2.scope_2.getD 0)).sum,
    total_scope_3 := (g.map (fun r => r.2.scope_3)).sum,
    total_emissions := (g.map (fun r => r.2.total)).sum,
    avg_emissions := (g.map (fun r => r.2.total)).sum / (g.length : ℚ) }

/-- GET /api/sectors and GET /api/regions: join, filter by year, GROUP BY the
key, ORDER BY total_emissions DESC. -/
def rollup (db : Db) (key : Company → String) (year : Int) : List GroupRow :=
  let rows := yearRows db year
  (((rows.map (fun r => key r.1)).dedup).map (groupRow rows key)).mergeSort
    (fun a b => b.total_emissions ≤ a.total_emissions)

/-- The WHERE clause GET /api/search assembles: the name LIKE filter is added
only when `q` is truthy (non-empty), the sector/region equality filters only
when those parameters are truthy. -/
def searchFilter (q : String) (sector region : Option String) (c : Company) : Bool :=
  (q == "" || likeMatch ("%" ++ q ++ "%").data c.name.data) &&
  (match sector with | none => true | some s => s == "" || c.sector == s) &&
  (match region with | none => true | some s => s == "" || c.region == s)

/-- GET /api/search: `SELECT DISTINCT c.* FROM companies c WHERE ...
ORDER BY c.name LIMIT 50`. -/
def search (db : Db) (q : String) (sector region : Option String) : List Company :=
  (((db.companies.filter (searchFilter q sector region)).dedup).mergeSort
    (fun a b => a.name ≤ b.name)).take 50

/-- The observable error behaviour of an endpoint: HTTP status, top-level
`success` flag, `error` message if any. -/
structure ErrResp where
  status : Nat
  success : Bool
  error : Option String
deriving DecidableEq, Repr

/-- The status logic of GET /api/companies/:name: the store either yields the
database or raises (the catch branch, 500 with the raw message); a missing
company is the explicit 404 branch with error "Company not found". -/
def companyEndpointStatus (store : Except String Db) (name : String) : ErrResp :=
  match store with
  | .error msg => { status := 500, success := false, error := some msg }
  | .ok db =>
    match findCompany db name with
    | none => { status := 404, success := false, error := some "Company not found" }
    | some _ => { status := 200, success := true, error := none }

/-- The status logic of GET /api/companies/:name/peers, identical branch
structure to the company endpoint. -/
def peersEndpointStatus (store : Except String Db) (name : String) : ErrResp :=
  match store with
  | .error msg => { status := 500, success := false, error := some msg }
  | .ok db =>
    match findCompany db name with
    | none => { status := 404, success := false, error := some "Company not found" }
    | some _ => { status := 200, success := true, error := none }

end Api

namespace Mock

/-- A row of `emissions-data.json` as mockApi.js consumes it, with the numeric
cells already parsed (`parseInt`/`parseFloat` on the JSON values).  `none` in
`Scope2` models a JS-falsy (absent or empty) "Scope 2" cell; field names drop
the spaces of the JSON keys ("Baseline Year" etc.). -/
structure RawRow where
  Company : String
  Sector : String
  Region : String
  Ownership : String
  BaselineYear : Int
  NetZeroYear : Int
  InterimTargetYear : Option Int := none
  InterimReductionPercent : Option Int := none
  Year : Int
  Scope1 : ℚ
  Scope2 : Option ℚ
  Scope3 : ℚ
deriving DecidableEq, Repr

/-- The total the mock computes from a raw row:
`parseFloat(row['Scope 1']) + (row['Scope 2'] ? parseFloat(row['Scope 2']) : 0) + parseFloat(row['Scope 3'])`. -/
def rowTotal (r : RawRow) : ℚ :=
  r.Scope1 + (match r.Scope2 with | some v => v | none => 0) + r.Scope3

/-- One element of the `emissions` array mockApi.getCompanyData returns. -/
structure MockEmission where
  year : Int
  scope_1 : ℚ
  scope_2 : Option ℚ
  scope_3 : ℚ
  total : ℚ
deriving DecidableEq, Repr

/-- mockApi.getCompanyData, reduced to its emissions output (the accompanying
`company` object is irrelevant to the claims); `none` models the thrown
`Error('Company not found')`.  The `.sort((a, b) => a.year - b.year)` is the
stable ascending sort by year. -/
def getCompanyData (rawData : List RawRow) (companyName : String) :
    Option (List MockEmission) :=
  let companyRows := rawData.filter (fun row => row.Company == companyName)
  if companyRows.isEmpty then none
  else
    some ((companyRows.map (fun row =>
      { year := row.Year, scope_1 := row.Scope1, scope_2 := row.Scope2,
        scope_3 := row.Scope3, total := rowTotal row : MockEmission })).mergeSort
      (fun a b => a.year ≤ b.year))

/-- One element of the `companies` array mockApi.getPeerCompanies returns. -/
structure MockPeer where
  name : String
  sector : String
  region : String
  total_emissions : ℚ
  year : Int
  is_current_company : Bool
deriving DecidableEq, Repr

/-- The response of mockApi.getPeerCompanies. -/
structure MockPeersResp where
  year : Int
  sector : String
  companies : List MockPeer
deriving DecidableEq, Repr

/-- Worker for `dedupByCompany`: keep a row only when its company has not
been seen yet. -/
def dedupByCompanyGo (seen : List String) : List RawRow → List RawRow
  | [] => []
  | r :: rs =>
    if r.Company ∈ seen then dedupByCompanyGo seen rs
    else r :: dedupByCompanyGo (r.Company :: seen) rs

/-- First-occurrence-wins grouping by company name, as the `Map` keyed by
`row.Company` produces (insertion order preserved). -/
def dedupByCompany (rows : List RawRow) : List RawRow := dedupByCompanyGo [] rows

/-- mockApi.getPeerCompanies with its source defaults `limit = 4`,
`year = 2022`; `shuffle` models `.sort(() => Math.random() - 0.5)`; `none`
models the thrown `Error('Company not found')`.  The current-company entry is
prepended unconditionally, with total 0 when no row matches the year. -/
def getPeerCompanies (rawData : List RawRow) (companyName : String)
    (shuffle : List MockPeer → List MockPeer)
    (limit : Nat := 4) (year : Int := 2022) : Option MockPeersResp :=
  match rawData.find? (fun row => row.Company == companyName) with
  | none => none
  | some companyRow =>
    let sector := companyRow.Sector
    let currentCompanyData :=
      (rawData.filter (fun row => row.Company == companyName && row.Year == year)).head?
    let currentCompanyEmissions : ℚ :=
      match currentCompanyData with
      | some r => rowTotal r
      | none => 0
    let peerRows := dedupByCompany (rawData.filter
      (fun row => row.Sector == sector && row.Company != companyName && row.Year == year))
    let peers := (shuffle (peerRows.map (fun row =>
      { name := row.Company, sector := row.Sector, region := row.Region,
        total_emissions := rowTotal row, year := year,
        is_current_company := false : MockPeer }))).take limit
    some { year := year, sector := sector,
           companies :=
             { name := companyName, sector := sector, region := companyRow.Region,
               total_emissions := currentCompanyEmissions, year := year,
               is_current_company := true } :: peers }

/-- One output group of mockApi.getSectors.  Unlike the API rollup row, it
carries no avg_emissions field — the mock never computes an average — and its
company_count is a plain per-row counter. -/
structure MockGroupRow where
  sector : String
  company_count : Nat
  total_scope_1 : ℚ
  total_scope_2 : ℚ
  total_scope_3 : ℚ
  total_emissions : ℚ
deriving DecidableEq, Repr

/-- The forEach body of mockApi.getSectors on an existing entry:
`data.company_count++; data.total_scope_1 += scope1; data.total_scope_2 +=
scope2; data.total_scope_3 += scope3; data.total_emissions += scope1 + scope2
+ scope3` (scope2 already coerced to 0 when falsy). -/
def updateGroup (row : RawRow) (g : MockGroupRow) : MockGroupRow :=
  { g with
    company_count := g.company_count + 1,
    total_scope_1 := g.total_scope_1 + row.Scope1,
    total_scope_2 := g.total_scope_2 +
      (match row.Scope2 with | some v => v | none => 0),
    total_scope_3 := g.total_scope_3 + row.Scope3,
    total_emissions := g.total_emissions + rowTotal row }

/-- The zero-initialised entry `sectorMap.set(sector, {...})` starts from. -/
def emptyGroup (sector : String) : MockGroupRow :=
  { sector := sector, company_count := 0, total_scope_1 := 0, total_scope_2 := 0,
    total_scope_3 := 0, total_emissions := 0 }

/-- One forEach step over the sector Map, modelled on an insertion-ordered
association list: update the entry of the row's sector, appending a fresh
zero entry first when the sector is new. -/
def insertRow (acc : List MockGroupRow) (row : RawRow) : List MockGroupRow :=
  if acc.any (fun g => g.sector == row.Sector) then
    acc.map (fun g => if g.sector == row.Sector then updateGroup row g else g)
  else acc ++ [updateGroup row (emptyGroup row.Sector)]

/-- mockApi.getSectors (default year 2022): filter the year's rows, accumulate
the per-sector sums in Map insertion order, then
`.sort((a, b) => b.total_emissions - a.total_emissions)`. -/
def getSectors (rawData : List RawRow) (year : Int := 2022) : List MockGroupRow :=
  ((rawData.filter (fun row => row.Year == year)).foldl insertRow []).mergeSort
    (fun a b => b.total_emissions ≤ a.total_emissions)

/-- The rows of one sector. -/
def sectorRows (rows : List RawRow) (s : String) : List RawRow :=
  rows.filter (fun row => row.Sector == s)

/-- The canonical aggregate of one sector's rows: what the forEach
accumulation computes for that sector. -/
def aggregateGroup (s : String) (rows : List RawRow) : MockGroupRow :=
  { sector := s,
    company_count := (sectorRows rows s).length,
    total_scope_1 := ((sectorRows rows s).map RawRow.Scope1).sum,
    total_scope_2 := ((sectorRows rows s).map
      (fun r => match r.Scope2 with | some v => v | none => 0)).sum,
    total_scope_3 := ((sectorRows rows s).map RawRow.Scope3).sum,
    total_emissions := ((sectorRows rows s).map rowTotal).sum }

end Mock

namespace Etl

/-- JS `String.prototype.trim`: strip leading and trailing whitespace,
structurally over the character list. -/
def trimChars (s : List Char) : List Char :=
  ((s.dropWhile Char.isWhitespace).reverse.dropWhile Char.isWhitespace).reverse

/-- String-level wrapper of `trimChars`. -/
def trimStr (s : String) : String := String.mk (trimChars s.data)

/-- JS `String.prototype.split` on a one-character separator, structurally:
`cur` accumulates the current field in reverse. -/
def splitOnChar (sep : Char) : List Char → List Char → List String
  | cur, [] => [String.mk cur.reverse]
  | cur, c :: cs =>
    if c = sep then String.mk cur.reverse :: splitOnChar sep [] cs
    else splitOnChar sep (c :: cur) cs

/-- JS `.replace(/\r/g, '')`: drop every carriage return. -/
def stripCR (s : String) : String := String.mk (s.data.filter (fun c => c ≠ '\x0d'))

/-- etl.cjs `cleanValue`: `none` models JS `undefined` (a missing cell).  The
raw value is compared against the literal string 'undefined' before trimming,
and a surviving value is returned trimmed. -/
def cleanValue (value : Option String) (defaultValue : Option String := none) :
    Option String :=
  match value with
  | none => defaultValue
  | some v =>
    if v == "" || trimStr v == "" || v == "undefined" then defaultValue
    else some (trimStr v)

/-- A parsed CSV row: header name ↦ cleaned cell, mirroring
`headers.forEach((header, idx) => row[header] = cleanValue(values[idx]))`
over the initially-empty object; a later duplicate header overwrites. -/
def buildRow (headers : List String) (values : List String) : String → Option String :=
  headers.enum.foldl
    (fun row p => fun k => if k == p.2 then cleanValue values[p.1]? else row k)
    (fun _ => none)

/-- `line.split(',')`. -/
def splitCells (line : String) : List String := splitOnChar ',' [] line.data

/-- The header line: `lines[0].split(',').map(h => h.trim().replace(/\r/g, ''))`. -/
def parseHeaders (headerLine : String) : List String :=
  (splitCells headerLine).map (fun h => stripCR (trimStr h))

/-- The row loop of etl.cjs: build each data line's row object and keep it only
when `row.Company` is truthy. -/
def parseRows (headers : List String) (dataLines : List String) :
    List (String → Option String) :=
  (dataLines.map (fun line => buildRow headers (splitCells line))).filter
    (fun row => (row "Company").isSome)

/-- `csvContent.split('\n').filter(line => line.trim())`. -/
def csvLines (content : String) : List String :=
  (splitOnChar '\x0a' [] content.data).filter (fun line => trimStr line != "")

/-- The whole parse phase on a raw CSV string; `none` when there is no header
line (the script would crash dereferencing `lines[0]`). -/
def etlRows (content : String) : Option (List (String → Option String)) :=
  match csvLines content with
  | [] => none
  | header :: dataLines => some (parseRows (parseHeaders header) dataLines)

/-- A companies-table insert generated by etl.cjs; string-valued fields since
the script only manipulates SQL text (`some` values are spliced as written,
`none` renders as the SQL literal NULL). -/
structure CompanyIns where
  name : String
  sector : Option String
  region : Option String
  ownership : Option String
  baseline_year : Option String
  net_zero_year : Option String
  interim_target_year : Option String
  interim_reduction_percent : Option String
deriving DecidableEq, Repr

/-- The company record built from a row's first occurrence, with the source's
defaults: sector 'Other', region 'Unknown', ownership 'Public',
baseline_year '2020', net_zero_year '2050'. -/
def mkCompany (row : String → Option String) : CompanyIns :=
  { name := (row "Company").getD "",
    sector := cleanValue (row "Sector") (some "Other"),
    region := cleanValue (row "Region") (some "Unknown"),
    ownership := cleanValue (row "Ownership") (some "Public"),
    baseline_year := cleanValue (row "Baseline Year") (some "2020"),
    net_zero_year := cleanValue (row "Net Zero Year") (some "2050"),
    interim_target_year := cleanValue (row "Interim Target Year") none,
    interim_reduction_percent := cleanValue (row "Interim Reduction %") none }

/-- One step of the `companies` Map construction: insert the row's company
unless a company of that name was already seen. -/
def companyStep (acc : List CompanyIns) (row : String → Option String) :
    List CompanyIns :=
  if acc.any (fun c => c.name == (row "Company").getD "") then acc
  else acc ++ [mkCompany row]

/-- The `companies` Map of etl.cjs: first-seen row per company name wins,
insertion order preserved. -/
def extractCompanies (rows : List (String → Option String)) : List CompanyIns :=
  rows.foldl companyStep []

/-- An emissions-table insert generated by etl.cjs (`INSERT INTO emissions ...
SELECT id, year, scope_1, scope_2, scope_3 FROM companies WHERE name = ...`);
`scope_2 = none` renders as the SQL literal NULL. -/
structure EmissionIns where
  company : String
  year : String
  scope_1 : String
  scope_2 : Option String
  scope_3 : String
deriving DecidableEq, Repr

/-- The per-row emissions insert: emitted only `if (year)`, with defaults
scope_1 '0', scope_3 '0' and scope_2 NULL when blank. -/
def mkEmission (row : String → Option String) : Option EmissionIns :=
  match cleanValue (row "Year") none with
  | none => none
  | some year =>
    some { company := (row "Company").getD "",
           year := year,
           scope_1 := (cleanValue (row "Scope 1") (some "0")).getD "0",
           scope_2 := cleanValue (row "Scope 2") none,
           scope_3 := (cleanValue (row "Scope 3") (some "0")).getD "0" }

/-- The emissions loop of etl.cjs over the kept rows. -/
def extractEmissions (rows : List (String → Option String)) : List EmissionIns :=
  rows.filterMap mkEmission

end Etl

/-! ### General list helpers -/

theorem sum_filter_split (l : List α) (p : α → Bool) (f : α → ℚ) :
    ((l.filter p).map f).sum + ((l.filter (fun a => !p a)).map f).sum = (l.map f).sum := by
  induction l with
  | nil => simp
  | cons a l ih =>
    by_cases h : p a = true <;> simp [List.filter_cons, h, ← ih] <;> ring

theorem sum_over_keys (key : α → K) [DecidableEq K] (f : α → ℚ) :
    ∀ (ks : List K) (l : List α), ks.Nodup → (∀ a ∈ l, key a ∈ ks) →
      (ks.map (fun k => ((l.filter (fun a => key a == k)).map f).sum)).sum = (l.map f).sum := by
  intro ks
  induction ks with
  | nil =>
    intro l _ hcover
    have : l = [] := by
      cases l with
      | nil => rfl
      | cons a l => exact absurd (hcover a (by simp)) (by simp)
    simp [this]
  | cons k ks ih =>
    intro l hnd hcover
    have hk : k ∉ ks := (List.nodup_cons.mp hnd).1
    have hnd' : ks.Nodup := (List.nodup_cons.mp hnd).2
    have hmapeq :
        ks.map (fun k' => ((l.filter (fun a => key a == k')).map f).sum) =
        ks.map (fun k' =>
          (((l.filter (fun a => !(key a == k))).filter (fun a => key a == k')).map f).sum) := by
      refine List.map_congr_left ?_
      intro k' hk'
      have hfil : (l.filter (fun a => !(key a == k))).filter (fun a => key a == k') =
          l.filter (fun a => key a == k') := by
        rw [List.filter_filter]
        refine List.filter_congr ?_
        intro a _
        by_cases h : key a = k'
        · have : ¬ key a = k := fun hh => hk (hh ▸ h ▸ hk')
          simp [h, this]
          exact fun hh => hk (hh ▸ hk')
        · simp [h]
      rw [hfil]
    have hcover' : ∀ a ∈ l.filter (fun a => !(key a == k)), key a ∈ ks := by
      intro a ha
      rcases List.mem_filter.mp ha with ⟨hal, hcond⟩
      have := hcover a hal
      simp only [List.mem_cons] at this
      rcases this with h | h
      · exfalso
        simp [h] at hcond
      · exact h
    calc (((k :: ks).map (fun k' => ((l.filter (fun a => key a == k')).map f).sum)).sum)
        = ((l.filter (fun a => key a == k)).map f).sum +
            (ks.map (fun k' => ((l.filter (fun a => key a == k')).map f).sum)).sum := by
          simp
      _ = ((l.filter (fun a => key a == k)).map f).sum +
            ((l.filter (fun a => !(key a == k))).map f).sum := by
          rw [hmapeq, ih (l.filter (fun a => !(key a == k))) hnd' hcover']
      _ = (l.map f).sum := sum_filter_split l (fun a => key a == k) f

/-- Summing any ℚ-valued projection of the grouped-by-key partition of `l`
recovers the sum over `l`. -/
theorem sum_partition (l : List α) (key : α → K) [DecidableEq K] (f : α → ℚ) :
    (((l.map key).dedup).map (fun k => ((l.filter (fun a => key a == k)).map f).sum)).sum
      = (l.map f).sum := by
  refine sum_over_keys key f _ l (List.nodup_dedup _) ?_
  intro a ha
  exact List.mem_dedup.mpr (List.mem_map_of_mem key ha)

/-- `List.sorted_mergeSort` with the comparison passed positionally. -/
theorem sorted_mergeSort_of {α : Type _} (le : α → α → Bool)
    (htrans : ∀ (a b c : α), le a b → le b c → le a c)
    (htotal : ∀ (a b : α), le a b || le b a) (l : List α) :
    (l.mergeSort le).Pairwise (fun a b => le a b = true) :=
  List.sorted_mergeSort htrans htotal l

theorem pairwise_getLast_max {l : List α} {R : α → α → Prop} (hrefl : ∀ a, R a a)
    (hp : l.Pairwise R) {y : α} (hy : l.getLast? = some y) : ∀ x ∈ l, R x y := by
  induction l with
  | nil => simp at hy
  | cons a l ih =>
    cases l with
    | nil =>
      simp only [List.getLast?_singleton, Option.some.injEq] at hy
      intro x hx
      simp only [List.mem_singleton] at hx
      rw [hx, hy]
      exact hrefl y
    | cons b l' =>
      have hy' : (b :: l').getLast? = some y := by
        simpa [List.getLast?] using hy
      have hp' := List.pairwise_cons.mp hp
      intro x hx
      rcases List.mem_cons.mp hx with hx | hx
      · subst hx
        exact hp'.1 y (List.mem_of_getLast?_eq_some hy')
      · exact ih hp'.2 hy' x hx

theorem length_filterMap_lt {l : List α} {f : α → Option β} {x : α}
    (hx : x ∈ l) (hfx : f x = none) : (l.filterMap f).length < l.length := by
  induction l with
  | nil => simp at hx
  | cons a l ih =>
    rcases List.mem_cons.mp hx with h | h
    · subst h
      rw [List.filterMap_cons, hfx]
      exact Nat.lt_succ_of_le (List.length_filterMap_le f l)
    · rw [List.filterMap_cons]
      cases f a with
      | none => exact Nat.lt_succ_of_lt (ih h)
      | some b => simpa using ih h

namespace Api

theorem filterMap_join_map_snd (cs : List Company) :
    ∀ es : List Emission, (∀ e ∈ es, ∃ c ∈ cs, c.id = e.company_id) →
      ((es.filterMap
          (fun e => (cs.find? (fun c => c.id == e.company_id)).map (fun c => (c, e)))).map
        Prod.snd) = es := by
  intro es
  induction es with
  | nil => simp
  | cons e es ih =>
    intro hfk
    have hsome : (cs.find? (fun c => c.id == e.company_id)).isSome := by
      rw [List.find?_isSome]
      rcases hfk e (by simp) with ⟨c, hc, hid⟩
      exact ⟨c, hc, by simp [hid]⟩
    rcases Option.isSome_iff_exists.mp hsome with ⟨c, hc⟩
    simp [List.filterMap_cons, hc, ih (fun e' he' => hfk e' (by simp [he']))]

theorem joinRows_map_snd {db : Db} (h : ValidDb db) :
    (joinRows db).map Prod.snd = db.emissions :=
  filterMap_join_map_snd db.companies db.emissions h.fk

theorem mem_joinRows {db : Db} {r : Company × Emission} (hr : r ∈ joinRows db) :
    r.1 ∈ db.companies ∧ r.2 ∈ db.emissions ∧ r.1.id = r.2.company_id := by
  rcases List.mem_filterMap.mp hr with ⟨e, he, hfe⟩
  rcases Option.map_eq_some'.mp hfe with ⟨c, hfind, hce⟩
  have h1 : c ∈ db.companies := List.mem_of_find?_eq_some hfind
  have h2 : c.id = e.company_id := by
    have := List.find?_some hfind
    simpa using this
  rw [← hce]
  exact ⟨h1, he, h2⟩

theorem mem_joinRows_iff {db : Db} (h : ValidDb db) {r : Company × Emission} :
    r ∈ joinRows db ↔ r.1 ∈ db.companies ∧ r.2 ∈ db.emissions ∧ r.1.id = r.2.company_id := by
  constructor
  · exact mem_joinRows
  · rintro ⟨hc, he, hid⟩
    have hsome : (db.companies.find? (fun c => c.id == r.2.company_id)).isSome := by
      rw [List.find?_isSome]
      exact ⟨r.1, hc, by simp [hid]⟩
    rcases Option.isSome_iff_exists.mp hsome with ⟨c', hc'⟩
    have hc'id : c'.id = r.2.company_id := by
      have := List.find?_some hc'
      simpa using this
    have hceq : c' = r.1 :=
      List.inj_on_of_nodup_map h.ids_nodup (List.mem_of_find?_eq_some hc') hc
        (by rw [hc'id, hid])
    refine List.mem_filterMap.mpr ⟨r.2, he, ?_⟩
    rw [hc', hceq]
    simp

theorem emissions_nodup {db : Db} (h : ValidDb db) : db.emissions.Nodup :=
  h.pair_nodup.of_map _

theorem companies_nodup {db : Db} (h : ValidDb db) : db.companies.Nodup :=
  h.ids_nodup.of_map _

theorem joinRows_nodup {db : Db} (h : ValidDb db) : (joinRows db).Nodup := by
  have : ((joinRows db).map Prod.snd).Nodup := by
    rw [joinRows_map_snd h]
    exact emissions_nodup h
  exact this.of_map _

theorem companyEmissions_pairs_nodup {db : Db} (h : ValidDb db) (cid : Nat) :
    ((companyEmissions db cid).map (fun e => (e.company_id, e.year))).Nodup :=
  h.pair_nodup.sublist ((List.filter_sublist _).map _)

theorem companyEmissions_nodup {db : Db} (h : ValidDb db) (cid : Nat) :
    (companyEmissions db cid).Nodup :=
  (companyEmissions_pairs_nodup h cid).of_map _

theorem companyEmissions_cid {db : Db} {cid : Nat} {e : Emission}
    (he : e ∈ companyEmissions db cid) : e.company_id = cid := by
  have := (List.mem_filter.mp he).2
  simpa using this

end Api

theorem likeMatch_pct_nil : ∀ s, likeMatch ['%'] s = true := by
  intro s
  induction s with
  | nil => simp [likeMatch]
  | cons c s ih => simp [likeMatch, ih]

theorem likeMatch_literal {q : List Char} (hq : WildcardFree q) :
    ∀ s, likeMatch (q ++ ['%']) s = leadMatchCI q s := by
  induction q with
  | nil =>
    intro s
    rw [List.nil_append, likeMatch_pct_nil, leadMatchCI]
  | cons a q ih =>
    have ha : a ≠ '%' ∧ a ≠ '_' := hq a (by simp)
    have hq' : WildcardFree q := fun c hc => hq c (by simp [hc])
    intro s
    cases s with
    | nil => simp [likeMatch, leadMatchCI, ha.1]
    | cons b s => simp [likeMatch, leadMatchCI, ha.1, ha.2, ih hq']

theorem likeMatch_pct_pattern {q : List Char} (hq : WildcardFree q) :
    ∀ s, likeMatch ('%' :: (q ++ ['%'])) s = hasSegCI q s := by
  intro s
  induction s with
  | nil => simp [likeMatch, hasSegCI, likeMatch_literal hq]
  | cons c s ih => simp [likeMatch, hasSegCI, likeMatch_literal hq, ih]

namespace Api

theorem companyEmissions_years_nodup {db : Db} (h : ValidDb db) (cid : Nat) :
    ((companyEmissions db cid).map Emission.year).Nodup := by
  refine (companyEmissions_nodup h cid).map_on ?_
  intro e he e' he' hyear
  refine List.inj_on_of_nodup_map h.pair_nodup
    (List.mem_filter.mp he).1 (List.mem_filter.mp he').1 ?_
  rw [companyEmissions_cid he, companyEmissions_cid he', hyear]

theorem mem_emissionsQuery {db : Db} {cid : Nat} {r : EmissionRowOut} :
    r ∈ emissionsQuery db cid ↔ ∃ e ∈ companyEmissions db cid, toRowOut e = r := by
  simp [emissionsQuery, List.mem_map, List.mem_mergeSort]

theorem emissionsQuery_sorted (db : Db) (cid : Nat) :
    (emissionsQuery db cid).Pairwise (fun a b => a.year ≤ b.year) := by
  rw [emissionsQuery, List.pairwise_map]
  have := sorted_mergeSort_of (fun a b : Emission => decide (a.year ≤ b.year))
    (fun a b c hab hbc => by simp only [decide_eq_true_eq] at *; omega)
    (fun a b => by simp [Int.le_total]) (companyEmissions db cid)
  exact this.imp (fun hab => by simpa using hab)

theorem emissionsQuery_nil_iff {db : Db} {cid : Nat} :
    emissionsQuery db cid = [] ↔ companyEmissions db cid = [] := by
  constructor
  · intro h
    have := congrArg List.length h
    simp only [emissionsQuery, List.length_map, List.length_mergeSort,
      List.length_nil] at this
    exact List.eq_nil_of_length_eq_zero this
  · intro h
    rw [emissionsQuery, h]
    simp

/-- The key (sector or region) of an emission row's company, resolved through
the join; used to phrase the rollup correspondence from the source tables. -/
def keyOf (db : Db) (key : Company → String) (e : Emission) : Option String :=
  (db.companies.find? (fun c => c.id == e.company_id)).map key

/-- The emission records of one rollup group, phrased from the source tables:
the records of the given year whose company carries the group key. -/
def groupEmissions (db : Db) (key : Company → String) (year : Int) (k : String) :
    List Emission :=
  db.emissions.filter (fun e => e.year == year && keyOf db key e == some k)

theorem joinRows_filter_map_snd (cs : List Company) (p : Company × Emission → Bool)
    (q : Emission → Bool)
    (hpq : ∀ e c, cs.find? (fun c' => c'.id == e.company_id) = some c → p (c, e) = q e) :
    ∀ es : List Emission, (∀ e ∈ es, ∃ c ∈ cs, c.id = e.company_id) →
      (((es.filterMap (fun e => (cs.find? (fun c => c.id == e.company_id)).map
          (fun c => (c, e)))).filter p).map Prod.snd) = es.filter q := by
  intro es
  induction es with
  | nil => simp
  | cons e es ih =>
    intro hfk
    have hsome : (cs.find? (fun c => c.id == e.company_id)).isSome := by
      rw [List.find?_isSome]
      rcases hfk e (by simp) with ⟨c, hc, hid⟩
      exact ⟨c, hc, by simp [hid]⟩
    rcases Option.isSome_iff_exists.mp hsome with ⟨c, hc⟩
    have ih' := ih (fun e' he' => hfk e' (by simp [he']))
    rw [List.filterMap_cons, hc]
    simp only [Option.map_some']
    rw [List.filter_cons, List.filter_cons, hpq e c hc]
    by_cases hq : q e = true
    · simp only [hq, if_pos, List.map_cons, ih']
    · simp only [hq, Bool.false_eq_true, if_false, ih']

theorem yearRows_map_snd {db : Db} (h : ValidDb db) (year : Int) :
    ((yearRows db year).map Prod.snd) = db.emissions.filter (fun e => e.year == year) :=
  joinRows_filter_map_snd db.companies _ _ (fun _ _ _ => rfl) db.emissions h.fk

theorem yearRows_key_map_snd {db : Db} (h : ValidDb db) (key : Company → String)
    (year : Int) (k : String) :
    (((yearRows db year).filter (fun r => key r.1 == k)).map Prod.snd) =
      groupEmissions db key year k := by
  rw [yearRows, joinRows, List.filter_filter]
  refine joinRows_filter_map_snd db.companies _ _ ?_ db.emissions h.fk
  intro e c hc
  simp only [groupEmissions, keyOf, hc, Option.map_some']
  cases hyear : (e.year == year) <;> cases hkey : (key c == k) <;> simp [hyear, hkey]

theorem groupEmissions_count {db : Db} (h : ValidDb db) (key : Company → String)
    (year : Int) (k : String) :
    (((groupEmissions db key year k).map Emission.company_id).dedup).length =
      (db.companies.filter (fun c => key c == k &&
        db.emissions.any (fun e => e.company_id == c.id && e.year == year))).length := by
  have hBnodup : ((db.companies.filter (fun c => key c == k &&
      db.emissions.any (fun e => e.company_id == c.id && e.year == year))).map
        Company.id).Nodup :=
    h.ids_nodup.sublist ((List.filter_sublist _).map _)
  have hmemiff : ∀ i : Nat,
      i ∈ ((groupEmissions db key year k).map Emission.company_id).dedup ↔
      i ∈ (db.companies.filter (fun c => key c == k &&
        db.emissions.any (fun e => e.company_id == c.id && e.year == year))).map
          Company.id := by
    intro i
    rw [List.mem_dedup, List.mem_map, List.mem_map]
    constructor
    · rintro ⟨e, he, rfl⟩
      have he' := List.mem_filter.mp he
      have hcond := he'.2
      simp only [Bool.and_eq_true, beq_iff_eq] at hcond
      obtain ⟨hyear, hkeyof⟩ := hcond
      rw [keyOf] at hkeyof
      rcases Option.map_eq_some'.mp hkeyof with ⟨c, hfind, hkc⟩
      have hcid : c.id = e.company_id := by simpa using List.find?_some hfind
      refine ⟨c, List.mem_filter.mpr ⟨List.mem_of_find?_eq_some hfind, ?_⟩, hcid⟩
      simp only [Bool.and_eq_true, beq_iff_eq, List.any_eq_true]
      exact ⟨hkc, e, he'.1, by simp [hcid, hyear]⟩
    · rintro ⟨c, hc, rfl⟩
      have hc' := List.mem_filter.mp hc
      have hcond := hc'.2
      simp only [Bool.and_eq_true, beq_iff_eq, List.any_eq_true] at hcond
      obtain ⟨hkc, e, he, hecond⟩ := hcond
      refine ⟨e, List.mem_filter.mpr ⟨he, ?_⟩, hecond.1⟩
      have hfindsome : (db.companies.find? (fun c' => c'.id == e.company_id)).isSome := by
        rw [List.find?_isSome]
        exact ⟨c, hc'.1, by simp [hecond.1]⟩
      rcases Option.isSome_iff_exists.mp hfindsome with ⟨c', hc'find⟩
      have hcc : c' = c := by
        refine List.inj_on_of_nodup_map h.ids_nodup
          (List.mem_of_find?_eq_some hc'find) hc'.1 ?_
        have := List.find?_some hc'find
        simpa [hecond.1] using this
      simp only [Bool.and_eq_true, beq_iff_eq]
      refine ⟨hecond.2, ?_⟩
      rw [keyOf, hc'find, hcc, Option.map_some', hkc]
  have hperm := (List.perm_ext_iff_of_nodup (List.nodup_dedup _) hBnodup).mpr hmemiff
  rw [hperm.length_eq, List.length_map]

theorem getPeers_some {db : Db} {name : String} {limit : Nat} {year : Int}
    {shuffle : List (Company × Emission) → List (Company × Emission)}
    {resp : PeersResp} (hresp : getPeers db name limit year shuffle = some resp) :
    ∃ c0, findCompany db name = some c0 ∧ resp.year = year ∧
      resp.sector = c0.sector ∧
      resp.companies = (match currentCompanyEmissions db name year with
        | some cur => cur :: peersQuery db c0.sector name year limit shuffle
        | none => peersQuery db c0.sector name year limit shuffle) := by
  rw [getPeers] at hresp
  cases hf : findCompany db name with
  | none => rw [hf] at hresp; cases hresp
  | some c0 =>
    rw [hf] at hresp
    simp only [Option.some.injEq] at hresp
    subst hresp
    exact ⟨c0, rfl, rfl, rfl, rfl⟩

theorem peersFilter_names_nodup {db : Db} (h : ValidDb db) (sector name : String)
    (year : Int) :
    (((joinRows db).filter (fun r => r.1.sector == sector && r.1.name != name &&
      r.2.year == year)).map (fun r => r.1.name)).Nodup := by
  refine ((joinRows_nodup h).sublist (List.filter_sublist _)).map_on ?_
  intro r hr r' hr' hname
  have hrj := mem_joinRows (List.mem_of_mem_filter hr)
  have hrj' := mem_joinRows (List.mem_of_mem_filter hr')
  have hcomp : r.1 = r'.1 :=
    List.inj_on_of_nodup_map h.names_nodup hrj.1 hrj'.1 hname
  have hyr : r.2.year = year := by
    have := (List.mem_filter.mp hr).2
    simp only [Bool.and_eq_true, beq_iff_eq] at this
    exact this.2
  have hyr' : r'.2.year = year := by
    have := (List.mem_filter.mp hr').2
    simp only [Bool.and_eq_true, beq_iff_eq] at this
    exact this.2
  have hemis : r.2 = r'.2 := by
    refine List.inj_on_of_nodup_map h.pair_nodup hrj.2.1 hrj'.2.1 ?_
    rw [← hrj.2.2, ← hrj'.2.2, hcomp, hyr, hyr']
  exact Prod.ext hcomp hemis

theorem mem_peersQuery {db : Db} {sector name : String} {year : Int} {limit : Nat}
    {shuffle : List (Company × Emission) → List (Company × Emission)}
    (hshuffle : ∀ l, List.Perm (shuffle l) l) {p : PeerRow}
    (hp : p ∈ peersQuery db sector name year limit shuffle) :
    ∃ r, r ∈ joinRows db ∧ toPeerRow r = p ∧ r.1.sector = sector ∧
      r.1.name ≠ name ∧ r.2.year = year := by
  rcases List.mem_map.mp hp with ⟨r, hr, hrp⟩
  have hr2 := (hshuffle _).mem_iff.mp (List.mem_of_mem_take hr)
  have hr3 := List.mem_filter.mp hr2
  have hcond := hr3.2
  simp only [Bool.and_eq_true, beq_iff_eq, bne_iff_ne, ne_eq] at hcond
  exact ⟨r, hr3.1, hrp, hcond.1.1, hcond.1.2, hcond.2⟩

theorem peersQuery_all_not_current {db : Db} {sector name : String} {year : Int}
    {limit : Nat} {shuffle : List (Company × Emission) → List (Company × Emission)}
    {p : PeerRow} (hp : p ∈ peersQuery db sector name year limit shuffle) :
    p.is_current_company = false := by
  rcases List.mem_map.mp hp with ⟨r, _, hrp⟩
  rw [← hrp]
  rfl

theorem currentCompanyEmissions_spec {db : Db} (h : ValidDb db) (name : String)
    (year : Int) :
    ((currentCompanyEmissions db name year).isSome ↔
      ∃ c ∈ db.companies, ∃ e ∈ db.emissions,
        c.name = name ∧ e.company_id = c.id ∧ e.year = year) ∧
    ∀ cur, currentCompanyEmissions db name year = some cur →
      cur.name = name ∧ cur.is_current_company = true ∧
      ∃ c ∈ db.companies, ∃ e ∈ db.emissions,
        c.name = name ∧ e.company_id = c.id ∧ e.year = year ∧
        cur.total_emissions = e.total := by
  rw [currentCompanyEmissions]
  cases hfl : (joinRows db).filter (fun r => r.1.name == name && r.2.year == year) with
  | nil =>
    constructor
    · constructor
      · intro hs
        simp at hs
      · rintro ⟨c, hc, e, he, hcn, hci, hey⟩
        have hmem : ((c, e) : Company × Emission) ∈ (joinRows db).filter
            (fun r => r.1.name == name && r.2.year == year) := by
          refine List.mem_filter.mpr ⟨(mem_joinRows_iff h).mpr ⟨hc, he, hci.symm⟩, ?_⟩
          simp [hcn, hey]
        rw [hfl] at hmem
        cases hmem
    · intro cur hcur
      simp at hcur
  | cons r rs =>
    have hrmem : r ∈ (joinRows db).filter
        (fun r => r.1.name == name && r.2.year == year) := by
      rw [hfl]
      exact List.mem_cons_self r rs
    have hr' := List.mem_filter.mp hrmem
    have hcond := hr'.2
    simp only [Bool.and_eq_true, beq_iff_eq] at hcond
    have hrj := mem_joinRows hr'.1
    constructor
    · constructor
      · intro _
        exact ⟨r.1, hrj.1, r.2, hrj.2.1, hcond.1, hrj.2.2.symm, hcond.2⟩
      · intro _
        simp
    · intro cur hcur
      simp only [List.map_cons, List.head?_cons, Option.some.injEq] at hcur
      subst hcur
      exact ⟨rfl, rfl, r.1, hrj.1, r.2, hrj.2.1, hcond.1, hrj.2.2.symm, hcond.2, rfl⟩

@[simp] theorem orNull_none : orNull none = none := rfl

theorem orNull_some (t : ℚ) : orNull (some t) = if t = 0 then none else some t := rfl

theorem getCompanyDetail_some {db : Db} {name : String} {d : CompanyDetail}
    (hd : getCompanyDetail db name = some d) :
    findCompany db name = some d.company ∧
    d.emissions = emissionsQuery db d.company.id ∧
    d.summary.baseline_emissions =
      orNull ((d.emissions.find? (fun e => e.year == d.company.baseline_year)).map
        EmissionRowOut.total) ∧
    d.summary.latest_emissions = orNull (d.emissions.getLast?.map EmissionRowOut.total) := by
  rw [getCompanyDetail] at hd
  cases hf : findCompany db name with
  | none => rw [hf] at hd; cases hd
  | some c =>
    rw [hf] at hd
    simp only [Option.some.injEq] at hd
    subst hd
    exact ⟨rfl, rfl, rfl, rfl⟩

end Api

/-! ### Concrete sample data for witnesses -/

/-- A sample company used by the witnesses. -/
def climateCorp : Company :=
  { id := 1, name := "Climate Corp", sector := "Tech", region := "EU",
    ownership := "Public", baseline_year := 2020, net_zero_year := 2050 }

/-- Another sample company used by the witnesses. -/
def greenEnergy : Company :=
  { id := 2, name := "Green Energy", sector := "Tech", region := "US",
    ownership := "Private", baseline_year := 2020, net_zero_year := 2045 }

/-- A small concrete database used by the witnesses. -/
def sampleDb : Db :=
  { companies := [climateCorp, greenEnergy],
    emissions :=
      [ { id := 1, company_id := 1, year := 2020, scope_1 := 100, scope_2 := some 50,
          scope_3 := 200 },
        { id := 2, company_id := 1, year := 2022, scope_1 := 80, scope_2 := none,
          scope_3 := 150 },
        { id := 3, company_id := 2, year := 2022, scope_1 := 10, scope_2 := some 5,
          scope_3 := 20 } ] }

theorem sampleDb_valid : ValidDb sampleDb :=
  ⟨by decide, by decide, by decide, by decide⟩

/-! ### Claims -/

/-- C2: every emission row returned by the company-detail query (API and mock)
has `total = scope_1 + (scope_2 ?? 0) + scope_3`, and the row's own `scope_2`
field is the source record's `scope_2` unchanged — in particular null (not 0)
when it is absent in the source data. -/
theorem claim_C2 :
    (∀ (db : Db) (cid : Nat), ∀ r ∈ Api.emissionsQuery db cid,
        r.total = r.scope_1 + r.scope_2.getD 0 + r.scope_3 ∧
        ∃ e ∈ db.emissions, e.company_id = cid ∧ r.year = e.year ∧
          r.scope_2 = e.scope_2) ∧
    (∀ (rawData : List Mock.RawRow) (companyName : String) (rows : List Mock.MockEmission),
        Mock.getCompanyData rawData companyName = some rows →
        ∀ r ∈ rows, r.total = r.scope_1 + r.scope_2.getD 0 + r.scope_3 ∧
          ∃ row ∈ rawData, row.Company = companyName ∧ r.year = row.Year ∧
            r.scope_2 = row.Scope2) := by
  constructor
  · intro db cid r hr
    rcases List.mem_map.mp hr with ⟨e, hes, rfl⟩
    have he : e ∈ Api.companyEmissions db cid := List.mem_mergeSort.mp hes
    have he' := List.mem_filter.mp he
    refine ⟨by simp [Api.toRowOut, Emission.total], e, he'.1, by simpa using he'.2, rfl, rfl⟩
  · intro rawData companyName rows hrows r hr
    cases hcase : (rawData.filter (fun row => row.Company == companyName)).isEmpty with
    | true => simp [Mock.getCompanyData, hcase] at hrows
    | false =>
      simp only [Mock.getCompanyData, hcase, Bool.false_eq_true, if_false,
        Option.some.injEq] at hrows
      rw [← hrows] at hr
      rcases List.mem_map.mp (List.mem_mergeSort.mp hr) with ⟨row, hrow, rfl⟩
      have hrow' := List.mem_filter.mp hrow
      refine ⟨?_, row, hrow'.1, by simpa using hrow'.2, rfl, rfl⟩
      simp only [Mock.rowTotal]
      cases row.Scope2 <;> simp

/-- A concrete output row used by the C2 witness. -/
def sampleRowOut : Api.EmissionRowOut :=
  { year := 2022, scope_1 := 80, scope_2 := none, scope_3 := 150, total := 230 }

/-- C2 witness: the theorem applied to the sample database. -/
theorem claim_C2_witness :
    (sampleRowOut.total = sampleRowOut.scope_1 + sampleRowOut.scope_2.getD 0 +
      sampleRowOut.scope_3) ∧
    ∃ e ∈ sampleDb.emissions, e.company_id = 1 ∧ sampleRowOut.year = e.year ∧
      sampleRowOut.scope_2 = e.scope_2 := by
  have hmem : sampleRowOut ∈ Api.emissionsQuery sampleDb 1 := by
    rw [Api.emissionsQuery, List.mergeSort_of_sorted (by decide)]
    refine List.mem_map.mpr ⟨{ id := 2, company_id := 1, year := 2022, scope_1 := 80,
                               scope_2 := none, scope_3 := 150 }, by decide, ?_⟩
    simp [sampleRowOut, Api.toRowOut, Emission.total]
    norm_num
  exact claim_C2.1 sampleDb 1 sampleRowOut hmem

/-- C7: for the company-detail and peer endpoints, the HTTP status is 404
exactly when the store yielded its data and the company name matched no row,
in which case the body is success:false with error "Company not found"; a
store failure (the only other failure mode) maps to 500, never 404. -/
theorem claim_C7 (store : Except String Db) (name : String) :
    ((Api.companyEndpointStatus store name).status = 404 ↔
      ∃ db, store = .ok db ∧ Api.findCompany db name = none) ∧
    ((Api.companyEndpointStatus store name).status = 404 →
      (Api.companyEndpointStatus store name).success = false ∧
      (Api.companyEndpointStatus store name).error = some "Company not found") ∧
    ((Api.peersEndpointStatus store name).status = 404 ↔
      ∃ db, store = .ok db ∧ Api.findCompany db name = none) ∧
    ((Api.peersEndpointStatus store name).status = 404 →
      (Api.peersEndpointStatus store name).success = false ∧
      (Api.peersEndpointStatus store name).error = some "Company not found") := by
  cases store with
  | error msg => simp [Api.companyEndpointStatus, Api.peersEndpointStatus]
  | ok db =>
    cases hf : Api.findCompany db name with
    | none =>
      have e1 : Api.companyEndpointStatus (Except.ok db) name =
          { status := 404, success := false, error := some "Company not found" } := by
        simp [Api.companyEndpointStatus, hf]
      have e2 : Api.peersEndpointStatus (Except.ok db) name =
          { status := 404, success := false, error := some "Company not found" } := by
        simp [Api.peersEndpointStatus, hf]
      rw [e1, e2]
      exact ⟨⟨fun _ => ⟨db, rfl, hf⟩, fun _ => rfl⟩, fun _ => ⟨rfl, rfl⟩,
        ⟨fun _ => ⟨db, rfl, hf⟩, fun _ => rfl⟩, fun _ => ⟨rfl, rfl⟩⟩
    | some c =>
      have hno : ¬ ∃ db', Except.ok (ε := String) db = Except.ok db' ∧
          Api.findCompany db' name = none := by
        rintro ⟨db', hdb, hnone⟩
        cases hdb
        rw [hf] at hnone
        cases hnone
      have e1 : Api.companyEndpointStatus (Except.ok db) name =
          { status := 200, success := true, error := none } := by
        simp [Api.companyEndpointStatus, hf]
      have e2 : Api.peersEndpointStatus (Except.ok db) name =
          { status := 200, success := true, error := none } := by
        simp [Api.peersEndpointStatus, hf]
      rw [e1, e2]
      exact ⟨⟨fun h => absurd h (by decide), fun h => absurd h hno⟩,
        fun h => absurd h (by decide),
        ⟨fun h => absurd h (by decide), fun h => absurd h hno⟩,
        fun h => absurd h (by decide)⟩

/-- C7 witness: the 404 branch observed on the sample database. -/
theorem claim_C7_witness :
    (Api.companyEndpointStatus (Except.ok sampleDb) "Nobody Inc").status = 404 ∧
    (Api.companyEndpointStatus (Except.ok sampleDb) "Nobody Inc").success = false ∧
    (Api.companyEndpointStatus (Except.ok sampleDb) "Nobody Inc").error =
      some "Company not found" := by
  have h := claim_C7 (Except.ok sampleDb) "Nobody Inc"
  have h404 : (Api.companyEndpointStatus (Except.ok sampleDb) "Nobody Inc").status = 404 :=
    h.1.mpr ⟨sampleDb, rfl, by decide⟩
  exact ⟨h404, (h.2.1 h404).1, (h.2.1 h404).2⟩

/-- The C1 counterexample company. -/
def zeroCorp : Company :=
  { id := 1, name := "Zero Corp", sector := "Tech", region := "EU",
    ownership := "Public", baseline_year := 2020, net_zero_year := 2050 }

/-- The C1 counterexample emission record: it sits at the baseline year and
its derived total is 0. -/
def zeroEmission : Emission :=
  { id := 1, company_id := 1, year := 2020, scope_1 := 0, scope_2 := none, scope_3 := 0 }

/-- The C1 counterexample database. -/
def zeroDb : Db := { companies := [zeroCorp], emissions := [zeroEmission] }

/-- C1 counterexample: for "Zero Corp" a record exists at the baseline year and
the company has records, yet both summary fields are null, because the JS
`?.total || null` coalesces the falsy total 0 to null.  This refutes both
"null iff no record's year equals the baseline year" and "null iff the company
has no emission records". -/
theorem claim_C1_counterexample :
    ∃ d, Api.getCompanyDetail zeroDb "Zero Corp" = some d ∧
      (∃ r ∈ d.emissions, r.year = d.company.baseline_year) ∧
      d.summary.baseline_emissions = none ∧
      d.emissions ≠ [] ∧
      d.summary.latest_emissions = none := by
  cases hd : Api.getCompanyDetail zeroDb "Zero Corp" with
  | none => exact absurd hd (by decide)
  | some d =>
    obtain ⟨hfind, hemis, hbase, hlast⟩ := Api.getCompanyDetail_some hd
    have hcomp : d.company = zeroCorp := by
      have h2 : Api.findCompany zeroDb "Zero Corp" = some zeroCorp := by decide
      rw [h2] at hfind
      exact (Option.some.injEq _ _).mp hfind.symm
    have hQ : d.emissions = [Api.toRowOut zeroEmission] := by
      rw [hemis, hcomp]
      rw [Api.emissionsQuery,
        show Api.companyEmissions zeroDb zeroCorp.id = [zeroEmission] from by decide]
      rw [List.mergeSort_singleton]
      rfl
    refine ⟨d, rfl, ?_, ?_, ?_, ?_⟩
    · rw [hQ, hcomp]
      exact ⟨_, List.mem_singleton_self _, rfl⟩
    · rw [hbase, hQ, hcomp]
      simp [List.find?, Api.orNull, zeroCorp, zeroEmission, Api.toRowOut, Emission.total]
    · rw [hQ]
      simp
    · rw [hlast, hQ]
      simp [Api.orNull, zeroEmission, Api.toRowOut, Emission.total]

/-- C1 (amended): for an existing company, `baseline_emissions` is null iff no
record sits at the baseline year or the matching record's derived total is 0
(the JS `|| null` coalesces a falsy 0), and otherwise it is that record's
nonzero total; `latest_emissions` is null iff the company has no records or
the highest-year record's total is 0, and otherwise it is that record's
nonzero total. -/
theorem claim_C1_amended (db : Db) (h : ValidDb db) (name : String)
    (d : Api.CompanyDetail) (hd : Api.getCompanyDetail db name = some d) :
    (d.summary.baseline_emissions = none ↔
      (∀ e ∈ Api.companyEmissions db d.company.id, e.year ≠ d.company.baseline_year) ∨
      ∃ e ∈ Api.companyEmissions db d.company.id,
        e.year = d.company.baseline_year ∧ e.total = 0) ∧
    (∀ t, d.summary.baseline_emissions = some t →
      t ≠ 0 ∧ ∃ e ∈ Api.companyEmissions db d.company.id,
        e.year = d.company.baseline_year ∧ e.total = t) ∧
    (d.summary.latest_emissions = none ↔
      Api.companyEmissions db d.company.id = [] ∨
      ∃ e ∈ Api.companyEmissions db d.company.id,
        (∀ x ∈ Api.companyEmissions db d.company.id, x.year ≤ e.year) ∧ e.total = 0) ∧
    (∀ t, d.summary.latest_emissions = some t →
      t ≠ 0 ∧ ∃ e ∈ Api.companyEmissions db d.company.id,
        (∀ x ∈ Api.companyEmissions db d.company.id, x.year ≤ e.year) ∧ e.total = t) := by
  obtain ⟨hfind, hemis, hbase, hlast⟩ := Api.getCompanyDetail_some hd
  rw [hemis] at hbase hlast
  have hinj : ∀ e ∈ Api.companyEmissions db d.company.id,
      ∀ e' ∈ Api.companyEmissions db d.company.id, e.year = e'.year → e = e' :=
    fun e he e' he' hy =>
      List.inj_on_of_nodup_map (Api.companyEmissions_years_nodup h d.company.id) he he' hy
  have hbase2 : (d.summary.baseline_emissions = none ↔
      (∀ e ∈ Api.companyEmissions db d.company.id, e.year ≠ d.company.baseline_year) ∨
      ∃ e ∈ Api.companyEmissions db d.company.id,
        e.year = d.company.baseline_year ∧ e.total = 0) ∧
      (∀ t, d.summary.baseline_emissions = some t →
        t ≠ 0 ∧ ∃ e ∈ Api.companyEmissions db d.company.id,
          e.year = d.company.baseline_year ∧ e.total = t) := by
    cases hfq : (Api.emissionsQuery db d.company.id).find?
        (fun e => e.year == d.company.baseline_year) with
    | none =>
      rw [hfq] at hbase
      simp only [Option.map_none', Api.orNull_none] at hbase
      constructor
      · rw [hbase]
        constructor
        · intro _
          left
          intro e he hy
          have hmem : Api.toRowOut e ∈ Api.emissionsQuery db d.company.id :=
            Api.mem_emissionsQuery.mpr ⟨e, he, rfl⟩
          have hne := List.find?_eq_none.mp hfq _ hmem
          simp only [Api.toRowOut, beq_iff_eq] at hne
          exact hne hy
        · intro _; rfl
      · intro t ht
        rw [hbase] at ht
        cases ht
    | some r =>
      rw [hfq] at hbase
      have hrmem : r ∈ Api.emissionsQuery db d.company.id := List.mem_of_find?_eq_some hfq
      have hry : r.year = d.company.baseline_year := by
        simpa using List.find?_some hfq
      obtain ⟨e, he, hre⟩ := Api.mem_emissionsQuery.mp hrmem
      have hey : e.year = d.company.baseline_year := by rw [← hry, ← hre]; rfl
      have het : e.total = r.total := by rw [← hre]; rfl
      simp only [Option.map_some'] at hbase
      rw [Api.orNull_some] at hbase
      by_cases hz : r.total = 0
      · rw [if_pos hz] at hbase
        constructor
        · rw [hbase]
          exact ⟨fun _ => Or.inr ⟨e, he, hey, het.trans hz⟩, fun _ => rfl⟩
        · intro t ht
          rw [hbase] at ht
          cases ht
      · rw [if_neg hz] at hbase
        constructor
        · rw [hbase]
          constructor
          · intro hcontra; cases hcontra
          · rintro (hall | ⟨e', he', hy', hz'⟩)
            · exact absurd hey (hall e he)
            · have hee : e = e' := hinj e he e' he' (hey.trans hy'.symm)
              exact absurd (by rw [← het, hee, hz']) hz
        · intro t ht
          rw [hbase] at ht
          have htr : t = r.total := ((Option.some.injEq _ _).mp ht).symm
          exact ⟨htr ▸ hz, e, he, hey, het.trans htr.symm⟩
  have hlast2 : (d.summary.latest_emissions = none ↔
      Api.companyEmissions db d.company.id = [] ∨
      ∃ e ∈ Api.companyEmissions db d.company.id,
        (∀ x ∈ Api.companyEmissions db d.company.id, x.year ≤ e.year) ∧ e.total = 0) ∧
      (∀ t, d.summary.latest_emissions = some t →
        t ≠ 0 ∧ ∃ e ∈ Api.companyEmissions db d.company.id,
          (∀ x ∈ Api.companyEmissions db d.company.id, x.year ≤ e.year) ∧ e.total = t) := by
    cases hgl : (Api.emissionsQuery db d.company.id).getLast? with
    | none =>
      rw [hgl] at hlast
      simp only [Option.map_none', Api.orNull_none] at hlast
      have hLnil : Api.companyEmissions db d.company.id = [] :=
        Api.emissionsQuery_nil_iff.mp (List.getLast?_eq_none_iff.mp hgl)
      constructor
      · rw [hlast]
        exact ⟨fun _ => Or.inl hLnil, fun _ => rfl⟩
      · intro t ht
        rw [hlast] at ht
        cases ht
    | some r =>
      rw [hgl] at hlast
      have hrmem : r ∈ Api.emissionsQuery db d.company.id :=
        List.mem_of_getLast?_eq_some hgl
      have hmax : ∀ x ∈ Api.emissionsQuery db d.company.id, x.year ≤ r.year :=
        pairwise_getLast_max (R := fun a b => a.year ≤ b.year) (fun a => le_refl a.year)
          (Api.emissionsQuery_sorted db d.company.id) hgl
      obtain ⟨e, he, hre⟩ := Api.mem_emissionsQuery.mp hrmem
      have het : e.total = r.total := by rw [← hre]; rfl
      have hLmax : ∀ x ∈ Api.companyEmissions db d.company.id, x.year ≤ e.year := by
        intro x hx
        have hxq : Api.toRowOut x ∈ Api.emissionsQuery db d.company.id :=
          Api.mem_emissionsQuery.mpr ⟨x, hx, rfl⟩
        have := hmax _ hxq
        rw [← hre] at this
        exact this
      simp only [Option.map_some'] at hlast
      rw [Api.orNull_some] at hlast
      by_cases hz : r.total = 0
      · rw [if_pos hz] at hlast
        constructor
        · rw [hlast]
          exact ⟨fun _ => Or.inr ⟨e, he, hLmax, het.trans hz⟩, fun _ => rfl⟩
        · intro t ht
          rw [hlast] at ht
          cases ht
      · rw [if_neg hz] at hlast
        constructor
        · rw [hlast]
          constructor
          · intro hcontra; cases hcontra
          · rintro (hnil | ⟨e', he', hmax', hz'⟩)
            · rw [hnil] at he; cases he
            · have hyy : e.year = e'.year :=
                le_antisymm (hmax' e he) (hLmax e' he')
              have hee : e = e' := hinj e he e' he' hyy
              exact absurd (by rw [← het, hee, hz']) hz
        · intro t ht
          rw [hlast] at ht
          have htr : t = r.total := ((Option.some.injEq _ _).mp ht).symm
          exact ⟨htr ▸ hz, e, he, hLmax, het.trans htr.symm⟩
  exact ⟨hbase2.1, hbase2.2, hlast2.1, hlast2.2⟩

/-- C1 witness: the amended theorem applied to the sample database. -/
theorem claim_C1_amended_witness :
    ∃ d, Api.getCompanyDetail sampleDb "Climate Corp" = some d ∧
      (d.summary.baseline_emissions = none ↔
        (∀ e ∈ Api.companyEmissions sampleDb d.company.id,
          e.year ≠ d.company.baseline_year) ∨
        ∃ e ∈ Api.companyEmissions sampleDb d.company.id,
          e.year = d.company.baseline_year ∧ e.total = 0) := by
  cases hd : Api.getCompanyDetail sampleDb "Climate Corp" with
  | none => exact absurd hd (by decide)
  | some d =>
    exact ⟨d, rfl, (claim_C1_amended sampleDb sampleDb_valid "Climate Corp" d hd).1⟩

theorem hasSegCI_nil : ∀ s, hasSegCI [] s = true
  | [] => rfl
  | _ :: s => by simp [hasSegCI, leadMatchCI, hasSegCI_nil s]

/-- Modelled from the spec's words, amended for SQLite LIKE semantics: the
search predicate keeps a company when its name contains `q` as a
case-insensitive (ASCII) substring (no name constraint when `q` is empty,
since every name contains the empty string), its sector equals the supplied
non-empty sector, and its region equals the supplied non-empty region. -/
def searchSpecFilter (q : String) (sector region : Option String) (c : Company) : Bool :=
  hasSegCI q.data c.name.data &&
  (match sector with | none => true | some s => s == "" || c.sector == s) &&
  (match region with | none => true | some s => s == "" || c.region == s)

theorem searchFilter_eq_spec (q : String) (hq : WildcardFree q.data)
    (sector region : Option String) :
    Api.searchFilter q sector region = searchSpecFilter q sector region := by
  funext c
  have hname : (q == "" || likeMatch ("%" ++ q ++ "%").data c.name.data) =
      hasSegCI q.data c.name.data := by
    have hdata : ("%" ++ q ++ "%").data = '%' :: (q.data ++ ['%']) := by
      rw [String.data_append, String.data_append]
      rfl
    rw [hdata, likeMatch_pct_pattern hq]
    cases hq0 : (q == "") with
    | false => simp
    | true =>
      have hq' : q = "" := by simpa using hq0
      subst hq'
      simp [hasSegCI_nil]
  rw [Api.searchFilter.eq_def, searchSpecFilter.eq_def, hname]

/-- C3 counterexample: searching the sample database for "corp" returns
"Climate Corp" even though "corp" is not a case-sensitive substring of
"Climate Corp" — SQLite's LIKE is case-insensitive for ASCII, so the search
is not the case-sensitive substring filter the claim states. -/
theorem claim_C3_counterexample :
    hasSegment "corp".data "Climate Corp".data = false ∧
    ∃ c ∈ Api.search sampleDb "corp" none none, c.name = "Climate Corp" := by
  constructor
  · decide
  · have hs : Api.search sampleDb "corp" none none = [climateCorp] := by
      rw [Api.search, searchFilter_eq_spec "corp" (by decide)]
      rw [show (sampleDb.companies.filter (searchSpecFilter "corp" none none)).dedup =
        [climateCorp] from by decide]
      rw [List.mergeSort_singleton]
      rfl
    rw [hs]
    exact ⟨climateCorp, by simp, rfl⟩

/-- C3 (amended): for `q` free of the LIKE wildcards `%` and `_`, the search
returns the first at most 50 companies, in ascending name order, whose name
contains `q` as a case-insensitive (ASCII) substring and whose sector/region
equal the supplied non-empty filters (AND-combined); every returned company
satisfies all supplied filters and the result never exceeds 50. -/
theorem claim_C3_amended (db : Db) (q : String) (sector region : Option String)
    (hq : WildcardFree q.data) :
    Api.search db q sector region =
      (((db.companies.filter (searchSpecFilter q sector region)).dedup).mergeSort
        (fun a b => a.name ≤ b.name)).take 50 ∧
    (Api.search db q sector region).length ≤ 50 ∧
    List.Pairwise (fun a b : Company => a.name ≤ b.name)
      (Api.search db q sector region) ∧
    ∀ c ∈ Api.search db q sector region,
      hasSegCI q.data c.name.data = true ∧
      (∀ s, sector = some s → s ≠ "" → c.sector = s) ∧
      (∀ s, region = some s → s ≠ "" → c.region = s) := by
  have heq : Api.search db q sector region =
      (((db.companies.filter (searchSpecFilter q sector region)).dedup).mergeSort
        (fun a b => a.name ≤ b.name)).take 50 := by
    rw [Api.search, searchFilter_eq_spec q hq]
  refine ⟨heq, ?_, ?_, ?_⟩
  · rw [heq]
    exact List.length_take_le _ _
  · rw [heq]
    refine List.Pairwise.sublist (List.take_sublist _ _) ?_
    have := sorted_mergeSort_of (fun a b : Company => decide (a.name ≤ b.name))
      (fun a b c hab hbc => by
        simp only [decide_eq_true_eq] at *
        exact le_trans hab hbc)
      (fun a b => by simp [le_total])
      ((db.companies.filter (searchSpecFilter q sector region)).dedup)
    exact this.imp (fun hab => by simpa using hab)
  · intro c hc
    rw [heq] at hc
    have hc2 : c ∈ (db.companies.filter (searchSpecFilter q sector region)).dedup :=
      List.mem_mergeSort.mp (List.mem_of_mem_take hc)
    have hcf := (List.mem_filter.mp (List.mem_dedup.mp hc2)).2
    rw [searchSpecFilter.eq_def] at hcf
    simp only [Bool.and_eq_true] at hcf
    obtain ⟨⟨hname, hsec⟩, hreg⟩ := hcf
    refine ⟨hname, ?_, ?_⟩
    · intro s hs hs0
      subst hs
      simp only [Bool.or_eq_true, beq_iff_eq] at hsec
      rcases hsec with hcase | hcase
      · exact absurd hcase hs0
      · exact hcase
    · intro s hs hs0
      subst hs
      simp only [Bool.or_eq_true, beq_iff_eq] at hreg
      rcases hreg with hcase | hcase
      · exact absurd hcase hs0
      · exact hcase

/-- C3 witness: the amended theorem applied to the sample database. -/
theorem claim_C3_amended_witness :
    (Api.search sampleDb "Corp" none none).length ≤ 50 ∧
    List.Pairwise (fun a b : Company => a.name ≤ b.name)
      (Api.search sampleDb "Corp" none none) :=
  ⟨(claim_C3_amended sampleDb "Corp" none none (by decide)).2.1,
   (claim_C3_amended sampleDb "Corp" none none (by decide)).2.2.1⟩

/-- C4 (amended, store-backed API operation): for every existing company,
limit and year, under any ORDER BY RANDOM() permutation the peers response
holds at most `limit` peer entries, each a distinct company (pairwise distinct
names) other than the named one, sharing its sector and having a record for
the year with the entry's total being that record's derived total; it holds
exactly one current-company entry (tagged true, with that record's derived
total) when the named company has a record for the year and zero otherwise.
(The in-memory mock deviates: its defaults are limit 4 and year 2022, and it
always emits a current-company entry — see the counterexample.) -/
theorem claim_C4_amended (db : Db) (h : ValidDb db) (name : String) (limit : Nat)
    (year : Int) (shuffle : List (Company × Emission) → List (Company × Emission))
    (hshuffle : ∀ l, List.Perm (shuffle l) l)
    (resp : Api.PeersResp) (hresp : Api.getPeers db name limit year shuffle = some resp) :
    (resp.companies.filter (fun p => !p.is_current_company)).length ≤ limit ∧
    ((resp.companies.filter (fun p => !p.is_current_company)).map
      (fun p => p.name)).Nodup ∧
    (∀ p ∈ resp.companies, p.is_current_company = false →
      p.name ≠ name ∧ ∃ c ∈ db.companies, ∃ e ∈ db.emissions,
        c.name = p.name ∧ c.sector = resp.sector ∧ e.company_id = c.id ∧
        e.year = year ∧ p.total_emissions = e.total) ∧
    (resp.companies.filter (fun p => p.is_current_company)).length ≤ 1 ∧
    ((resp.companies.filter (fun p => p.is_current_company)).length = 1 ↔
      ∃ c ∈ db.companies, ∃ e ∈ db.emissions,
        c.name = name ∧ e.company_id = c.id ∧ e.year = year) ∧
    (∀ p ∈ resp.companies, p.is_current_company = true →
      p.name = name ∧ ∃ c ∈ db.companies, ∃ e ∈ db.emissions,
        c.name = name ∧ e.company_id = c.id ∧ e.year = year ∧
        p.total_emissions = e.total) := by
  obtain ⟨c0, hc0, hyear, hsector, hcompanies⟩ := Api.getPeers_some hresp
  have hpeerfalse : ∀ p ∈ Api.peersQuery db c0.sector name year limit shuffle,
      (fun p : Api.PeerRow => !p.is_current_company) p = true := by
    intro p hp
    show (!p.is_current_company) = true
    rw [Api.peersQuery_all_not_current hp]
    rfl
  have hfilterpeers : resp.companies.filter (fun p => !p.is_current_company) =
      Api.peersQuery db c0.sector name year limit shuffle := by
    rw [hcompanies]
    cases hcur : Api.currentCompanyEmissions db name year with
    | none => exact List.filter_eq_self.mpr hpeerfalse
    | some cur =>
      rw [List.filter_cons]
      have hcurspec := (Api.currentCompanyEmissions_spec h name year).2 cur hcur
      rw [hcurspec.2.1]
      simp only [Bool.not_true, Bool.false_eq_true, if_false]
      exact List.filter_eq_self.mpr hpeerfalse
  have hmempeers : ∀ p ∈ resp.companies, p.is_current_company = false →
      p ∈ Api.peersQuery db c0.sector name year limit shuffle := by
    intro p hp hfalse
    rw [hcompanies] at hp
    cases hcur : Api.currentCompanyEmissions db name year with
    | none =>
      rw [hcur] at hp
      exact hp
    | some cur =>
      rw [hcur] at hp
      rcases List.mem_cons.mp hp with hp | hp
      · have hcurspec := (Api.currentCompanyEmissions_spec h name year).2 cur hcur
        rw [hp, hcurspec.2.1] at hfalse
        cases hfalse
      · exact hp
  refine ⟨?_, ?_, ?_, ?_, ?_, ?_⟩
  · rw [hfilterpeers, Api.peersQuery, List.length_map]
    exact List.length_take_le _ _
  · rw [hfilterpeers]
    have hmapeq : (Api.peersQuery db c0.sector name year limit shuffle).map
        (fun p => p.name) =
        (((shuffle ((Api.joinRows db).filter
          (fun r => r.1.sector == c0.sector && r.1.name != name &&
            r.2.year == year))).take limit).map (fun r => r.1.name)) := by
      rw [Api.peersQuery, List.map_map]
      rfl
    rw [hmapeq]
    have hnodup0 : ((shuffle ((Api.joinRows db).filter
        (fun r => r.1.sector == c0.sector && r.1.name != name &&
          r.2.year == year))).map (fun r => r.1.name)).Nodup :=
      ((hshuffle _).map _).nodup_iff.mpr
        (Api.peersFilter_names_nodup h c0.sector name year)
    exact hnodup0.sublist ((List.take_sublist _ _).map _)
  · intro p hp hfalse
    have hp' := hmempeers p hp hfalse
    obtain ⟨r, hrj, hrp, hrsector, hrname, hryear⟩ := Api.mem_peersQuery hshuffle hp'
    have hj := Api.mem_joinRows hrj
    have hpname : p.name = r.1.name := by rw [← hrp]; rfl
    have hptotal : p.total_emissions = r.2.total := by rw [← hrp]; rfl
    refine ⟨by rw [hpname]; exact hrname, r.1, hj.1, r.2, hj.2.1,
      hpname.symm, by rw [hsector, hrsector], hj.2.2.symm, hryear, hptotal⟩
  · rw [hcompanies]
    cases hcur : Api.currentCompanyEmissions db name year with
    | none =>
      rw [List.filter_eq_nil_iff.mpr (fun p hp => by
        rw [Api.peersQuery_all_not_current hp]; simp)]
      simp
    | some cur =>
      rw [List.filter_cons]
      have hcurspec := (Api.currentCompanyEmissions_spec h name year).2 cur hcur
      rw [hcurspec.2.1]
      simp only [if_pos]
      rw [List.filter_eq_nil_iff.mpr (fun p hp => by
        rw [Api.peersQuery_all_not_current hp]; simp)]
      simp
  · rw [hcompanies]
    cases hcur : Api.currentCompanyEmissions db name year with
    | none =>
      rw [List.filter_eq_nil_iff.mpr (fun p hp => by
        rw [Api.peersQuery_all_not_current hp]; simp)]
      constructor
      · intro h0
        cases h0
      · rintro ⟨c, hc, e, he, hcn, hci, hey⟩
        have hsome := ((Api.currentCompanyEmissions_spec h name year).1).mpr
          ⟨c, hc, e, he, hcn, hci, hey⟩
        rw [hcur] at hsome
        cases hsome
    | some cur =>
      rw [List.filter_cons]
      have hcurspec := (Api.currentCompanyEmissions_spec h name year).2 cur hcur
      rw [hcurspec.2.1]
      simp only [if_pos]
      rw [List.filter_eq_nil_iff.mpr (fun p hp => by
        rw [Api.peersQuery_all_not_current hp]; simp)]
      constructor
      · intro _
        obtain ⟨c, hc, e, he, hcn, hci, hey, _⟩ := hcurspec.2.2
        exact ⟨c, hc, e, he, hcn, hci, hey⟩
      · intro _
        rfl
  · intro p hp htrue
    rw [hcompanies] at hp
    cases hcur : Api.currentCompanyEmissions db name year with
    | none =>
      rw [hcur] at hp
      rw [Api.peersQuery_all_not_current hp] at htrue
      cases htrue
    | some cur =>
      rw [hcur] at hp
      rcases List.mem_cons.mp hp with hp | hp
      · have hcurspec := (Api.currentCompanyEmissions_spec h name year).2 cur hcur
        rw [hp]
        exact ⟨hcurspec.1, hcurspec.2.2⟩
      · rw [Api.peersQuery_all_not_current hp] at htrue
        cases htrue

/-- C4 witness: the amended theorem applied to the sample database. -/
theorem claim_C4_amended_witness :
    ∃ resp, Api.getPeers sampleDb "Climate Corp" 1 2022 id = some resp ∧
      (resp.companies.filter (fun p => !p.is_current_company)).length ≤ 1 ∧
      (resp.companies.filter (fun p => p.is_current_company)).length ≤ 1 := by
  cases hresp : Api.getPeers sampleDb "Climate Corp" 1 2022 id with
  | none => exact absurd hresp (by decide)
  | some resp =>
    have hmain := claim_C4_amended sampleDb sampleDb_valid "Climate Corp" 1 2022 id
      (fun l => List.Perm.refl l) resp hresp
    exact ⟨resp, rfl, hmain.1, hmain.2.2.2.1⟩

/-- A raw mock row for the C4 counterexample. -/
def mkPeerRaw (nm : String) (yr : Int) : Mock.RawRow :=
  { Company := nm, Sector := "S", Region := "EU", Ownership := "Public",
    BaselineYear := 2020, NetZeroYear := 2050, Year := yr,
    Scope1 := 1, Scope2 := none, Scope3 := 2 }

/-- C4 counterexample raw data: company "A" reports only 2020, while five
other companies of its sector report 2022. -/
def mockPeersData : List Mock.RawRow :=
  [mkPeerRaw "A" 2020, mkPeerRaw "B" 2022, mkPeerRaw "C" 2022, mkPeerRaw "D" 2022,
   mkPeerRaw "E" 2022, mkPeerRaw "F" 2022]

/-- C4 counterexample: mockApi.getPeerCompanies at its own defaults (limit 4,
year 2022) still returns exactly one is_current_company entry for "A" although
"A" has no record for 2022 (the claim demands zero), and returns only 4 peers
although 5 eligible peers exist and the claim states a default limit of 5. -/
theorem claim_C4_counterexample :
    (¬ ∃ row ∈ mockPeersData, row.Company = "A" ∧ row.Year = (2022 : Int)) ∧
    (Mock.getPeerCompanies mockPeersData "A" id).isSome = true ∧
    ((Mock.getPeerCompanies mockPeersData "A" id).map
      (fun resp => (resp.companies.filter (fun p => p.is_current_company)).length)) =
        some 1 ∧
    ((Mock.getPeerCompanies mockPeersData "A" id).map
      (fun resp => (resp.companies.filter (fun p => !p.is_current_company)).length)) =
        some 4 ∧
    (mockPeersData.filter (fun row => row.Sector == "S" && row.Company != "A" &&
      row.Year == (2022 : Int))).length = 5 := by
  refine ⟨by decide, by decide, by decide, by decide, by decide⟩

namespace Mock

theorem sectorRows_snoc (rows : List RawRow) (row : RawRow) (s : String) :
    sectorRows (rows ++ [row]) s =
      sectorRows rows s ++ (if row.Sector == s then [row] else []) := by
  rw [sectorRows, sectorRows, List.filter_append]
  congr 1
  rw [List.filter_cons]
  cases h : (row.Sector == s) <;> simp [h]

theorem aggregateGroup_snoc_ne (s : String) (rows : List RawRow) (row : RawRow)
    (hne : (row.Sector == s) = false) :
    aggregateGroup s (rows ++ [row]) = aggregateGroup s rows := by
  have hsr : sectorRows (rows ++ [row]) s = sectorRows rows s := by
    rw [sectorRows_snoc, hne]
    simp
  rw [aggregateGroup, aggregateGroup, hsr]

theorem aggregateGroup_snoc_eq (s : String) (rows : List RawRow) (row : RawRow)
    (heq : (row.Sector == s) = true) :
    aggregateGroup s (rows ++ [row]) = updateGroup row (aggregateGroup s rows) := by
  have hsr : sectorRows (rows ++ [row]) s = sectorRows rows s ++ [row] := by
    rw [sectorRows_snoc, heq]
    simp
  rw [aggregateGroup, aggregateGroup, updateGroup, hsr]
  simp

theorem aggregateGroup_empty (s : String) (rows : List RawRow)
    (hs : ∀ r ∈ rows, (r.Sector == s) = false) :
    aggregateGroup s rows = emptyGroup s := by
  have hnil : sectorRows rows s = [] :=
    List.filter_eq_nil_iff.mpr (fun r hr => by simp [hs r hr])
  rw [aggregateGroup, emptyGroup, hnil]
  simp

theorem insertRow_step (processed : List RawRow) (acc : List MockGroupRow)
    (row : RawRow)
    (h1 : (acc.map MockGroupRow.sector).Nodup)
    (h2 : ∀ s, s ∈ acc.map MockGroupRow.sector ↔ s ∈ processed.map RawRow.Sector)
    (h3 : ∀ g ∈ acc, g = aggregateGroup g.sector processed) :
    ((insertRow acc row).map MockGroupRow.sector).Nodup ∧
    (∀ s, s ∈ (insertRow acc row).map MockGroupRow.sector ↔
      s ∈ (processed ++ [row]).map RawRow.Sector) ∧
    (∀ g ∈ insertRow acc row, g = aggregateGroup g.sector (processed ++ [row])) := by
  rw [insertRow]
  by_cases hany : acc.any (fun g => g.sector == row.Sector) = true
  · rw [if_pos hany]
    have hsectors : ((acc.map (fun g => if g.sector == row.Sector then updateGroup row g
        else g)).map MockGroupRow.sector) = acc.map MockGroupRow.sector := by
      rw [List.map_map]
      refine List.map_congr_left ?_
      intro g _
      by_cases hg : (g.sector == row.Sector) = true
      · simp only [Function.comp_apply, if_pos hg]
        rfl
      · simp only [Function.comp_apply, if_neg hg]
    have hrowmem : row.Sector ∈ acc.map MockGroupRow.sector := by
      rcases List.any_eq_true.mp hany with ⟨g, hg, hgs⟩
      simp only [beq_iff_eq] at hgs
      exact List.mem_map.mpr ⟨g, hg, hgs⟩
    refine ⟨by rw [hsectors]; exact h1, ?_, ?_⟩
    · intro s
      rw [hsectors, List.map_append]
      constructor
      · intro hs
        exact List.mem_append_left _ ((h2 s).mp hs)
      · intro hs
        rcases List.mem_append.mp hs with hs | hs
        · exact (h2 s).mpr hs
        · simp only [List.map_cons, List.map_nil, List.mem_singleton] at hs
          rw [hs]
          exact hrowmem
    · intro g' hg'
      rcases List.mem_map.mp hg' with ⟨g, hg, hgg'⟩
      by_cases hgs : (g.sector == row.Sector) = true
      · rw [if_pos hgs] at hgg'
        subst hgg'
        have hsec : (updateGroup row g).sector = g.sector := rfl
        rw [hsec]
        rw [aggregateGroup_snoc_eq g.sector processed row ?_]
        · exact congrArg (updateGroup row) (h3 g hg)
        · have hgse : g.sector = row.Sector := by simpa using hgs
          simp [hgse]
      · rw [if_neg hgs] at hgg'
        subst hgg'
        rw [aggregateGroup_snoc_ne g.sector processed row ?_]
        · exact h3 g hg
        · rw [beq_eq_false_iff_ne]
          intro heq
          exact hgs (by simp [heq.symm])
  · rw [if_neg hany]
    have hrownotmem : row.Sector ∉ acc.map MockGroupRow.sector := by
      intro hmem
      rcases List.mem_map.mp hmem with ⟨g, hg, hgs⟩
      exact hany (List.any_eq_true.mpr ⟨g, hg, by simp [hgs]⟩)
    have hnotproc : row.Sector ∉ processed.map RawRow.Sector :=
      fun hmem => hrownotmem ((h2 _).mpr hmem)
    have hmapappend : ((acc ++ [updateGroup row (emptyGroup row.Sector)]).map
        MockGroupRow.sector) = acc.map MockGroupRow.sector ++ [row.Sector] := by
      rw [List.map_append]
      rfl
    refine ⟨?_, ?_, ?_⟩
    · rw [hmapappend]
      refine h1.append (List.nodup_singleton _) ?_
      intro a ha hmem
      simp only [List.mem_singleton] at hmem
      rw [hmem] at ha
      exact hrownotmem ha
    · intro s
      rw [hmapappend, List.map_append]
      simp only [List.mem_append, List.map_cons, List.map_nil, List.mem_singleton]
      constructor
      · rintro (hs | hs)
        · exact Or.inl ((h2 s).mp hs)
        · exact Or.inr hs
      · rintro (hs | hs)
        · exact Or.inl ((h2 s).mpr hs)
        · exact Or.inr hs
    · intro g' hg'
      rcases List.mem_append.mp hg' with hg' | hg'
      · have hgs : (row.Sector == g'.sector) = false := by
          rw [beq_eq_false_iff_ne]
          intro heq
          exact hrownotmem (heq ▸ List.mem_map.mpr ⟨g', hg', rfl⟩)
        rw [aggregateGroup_snoc_ne g'.sector processed row hgs]
        exact h3 g' hg'
      · simp only [List.mem_singleton] at hg'
        subst hg'
        have hsec : (updateGroup row (emptyGroup row.Sector)).sector = row.Sector := rfl
        rw [hsec]
        rw [aggregateGroup_snoc_eq row.Sector processed row (by simp)]
        have hempty : aggregateGroup row.Sector processed = emptyGroup row.Sector := by
          refine aggregateGroup_empty _ _ ?_
          intro r hr
          rw [beq_eq_false_iff_ne]
          intro heq
          exact hnotproc (heq ▸ List.mem_map.mpr ⟨r, hr, rfl⟩)
        rw [hempty]

theorem foldl_insertRow_spec (rows : List RawRow) :
    ∀ (processed : List RawRow) (acc : List MockGroupRow),
      (acc.map MockGroupRow.sector).Nodup →
      (∀ s, s ∈ acc.map MockGroupRow.sector ↔ s ∈ processed.map RawRow.Sector) →
      (∀ g ∈ acc, g = aggregateGroup g.sector processed) →
      ((rows.foldl insertRow acc).map MockGroupRow.sector).Nodup ∧
      (∀ s, s ∈ (rows.foldl insertRow acc).map MockGroupRow.sector ↔
        s ∈ (processed ++ rows).map RawRow.Sector) ∧
      (∀ g ∈ rows.foldl insertRow acc, g = aggregateGroup g.sector (processed ++ rows)) := by
  induction rows with
  | nil =>
    intro processed acc h1 h2 h3
    rw [List.foldl_nil, List.append_nil]
    exact ⟨h1, h2, h3⟩
  | cons row rows ih =>
    intro processed acc h1 h2 h3
    have hstep := insertRow_step processed acc row h1 h2 h3
    have hrest := ih (processed ++ [row]) (insertRow acc row) hstep.1 hstep.2.1 hstep.2.2
    rw [List.foldl_cons]
    rwa [List.append_assoc, List.singleton_append] at hrest

theorem getSectors_spec (rawData : List RawRow) (year : Int) :
    ((getSectors rawData year).Pairwise
      (fun a b => b.total_emissions ≤ a.total_emissions)) ∧
    (∀ s, (∃ g ∈ getSectors rawData year, g.sector = s) ↔
      s ∈ (rawData.filter (fun row => row.Year == year)).map RawRow.Sector) ∧
    ∀ g ∈ getSectors rawData year,
      g = aggregateGroup g.sector (rawData.filter (fun row => row.Year == year)) := by
  have hfold := foldl_insertRow_spec (rawData.filter (fun row => row.Year == year))
    [] [] (by simp) (by simp) (by simp)
  rw [List.nil_append] at hfold
  refine ⟨?_, ?_, ?_⟩
  · rw [getSectors]
    have := sorted_mergeSort_of
      (fun a b : MockGroupRow => decide (b.total_emissions ≤ a.total_emissions))
      (fun a b c hab hbc => by simp only [decide_eq_true_eq] at *; linarith)
      (fun a b => by simp [le_total])
      ((rawData.filter (fun row => row.Year == year)).foldl insertRow [])
    exact this.imp (fun hab => by simpa using hab)
  · intro s
    constructor
    · rintro ⟨g, hg, rfl⟩
      rw [getSectors] at hg
      exact (hfold.2.1 g.sector).mp
        (List.mem_map.mpr ⟨g, List.mem_mergeSort.mp hg, rfl⟩)
    · intro hs
      rcases List.mem_map.mp ((hfold.2.1 s).mpr hs) with ⟨g, hg, hgs⟩
      exact ⟨g, by rw [getSectors]; exact List.mem_mergeSort.mpr hg, hgs⟩
  · intro g hg
    rw [getSectors] at hg
    exact hfold.2.2 g (List.mem_mergeSort.mp hg)

end Mock

/-- C5: for every year and grouping key (sector or region alike), the sum of
the `total_emissions` fields over all rollup groups equals the sum of the
derived totals over all emission records of that year. -/
theorem claim_C5 (db : Db) (h : ValidDb db) (key : Company → String) (year : Int) :
    ((Api.rollup db key year).map Api.GroupRow.total_emissions).sum =
      ((db.emissions.filter (fun e => e.year == year)).map Emission.total).sum := by
  rw [Api.rollup]
  rw [((List.mergeSort_perm _ _).map Api.GroupRow.total_emissions).sum_eq]
  rw [List.map_map]
  have hstep : ((((Api.yearRows db year).map (fun r => key r.1)).dedup).map
      (Api.GroupRow.total_emissions ∘ Api.groupRow (Api.yearRows db year) key)).sum =
      ((Api.yearRows db year).map (fun r => r.2.total)).sum := by
    rw [show Api.GroupRow.total_emissions ∘ Api.groupRow (Api.yearRows db year) key =
      (fun k => (((Api.yearRows db year).filter (fun r => key r.1 == k)).map
        (fun r => r.2.total)).sum) from rfl]
    exact sum_partition (Api.yearRows db year) (fun r => key r.1) (fun r => r.2.total)
  rw [hstep]
  rw [show (fun r : Company × Emission => r.2.total) = (Emission.total ∘ Prod.snd)
    from rfl]
  rw [← List.map_map, Api.yearRows_map_snd h]

/-- C5 witness: the theorem applied to the sample database, sector key, 2022. -/
theorem claim_C5_witness :
    ((Api.rollup sampleDb Company.sector 2022).map Api.GroupRow.total_emissions).sum =
      ((sampleDb.emissions.filter (fun e => e.year == 2022)).map Emission.total).sum :=
  claim_C5 sampleDb sampleDb_valid Company.sector 2022

/-- A raw mock row for the C6 counterexample. -/
def dupRow : Mock.RawRow :=
  { Company := "X", Sector := "S", Region := "EU", Ownership := "Public",
    BaselineYear := 2020, NetZeroYear := 2050, Year := 2022,
    Scope1 := 1, Scope2 := none, Scope3 := 2 }

/-- C6 counterexample raw data: the same company reported twice for 2022
(nothing in the mock's JSON data path enforces the one-record-per-(company,
year) uniqueness the database schema guarantees). -/
def dupRawData : List Mock.RawRow := [dupRow, dupRow]

/-- C6 counterexample: the sector group mockApi.getSectors builds for "S" in
2022 reports company_count = 2 although only one distinct company ("X") has a
record for that year in the group — the mock increments company_count per row
instead of counting distinct companies (and its group objects carry no
avg_emissions field at all), so the claim as stated is false of the cited
mock implementation. -/
theorem claim_C6_counterexample :
    ∃ g ∈ Mock.getSectors dupRawData 2022, g.sector = "S" ∧
      g.company_count = 2 ∧
      (((Mock.sectorRows (dupRawData.filter (fun row => row.Year == (2022 : Int)))
        "S").map (fun r => r.Company)).dedup).length = 1 := by
  have hspec := Mock.getSectors_spec dupRawData 2022
  rcases (hspec.2.1 "S").mpr (by decide) with ⟨g, hg, hgs⟩
  refine ⟨g, hg, hgs, ?_, by decide⟩
  have hcc := congrArg Mock.MockGroupRow.company_count (hspec.2.2 g hg)
  rw [hcc, hgs]
  decide

/-- C6 (amended): for every year and grouping key, each store-backed API
rollup group carries the count of distinct companies having a record of that
year in the group, the sums of scope_1, scope_2 (absent treated as 0), scope_3
and derived totals over the group's records, and the average of the derived
totals, with the groups ordered by summed total descending — while each
mockApi.getSectors group (whose record type has no avg_emissions field at all)
carries as company_count the group's plain row count for the year, equal to
the count of distinct companies only when the year's rows hold at most one row
per company, alongside the same four sums and the same descending order. -/
theorem claim_C6 (db : Db) (h : ValidDb db) (key : Company → String) (year : Int) :
    (Api.rollup db key year).Pairwise
      (fun a b => b.total_emissions ≤ a.total_emissions) ∧
    (∀ g ∈ Api.rollup db key year,
      g.company_count = (((Api.groupEmissions db key year g.key).map
        Emission.company_id).dedup).length ∧
      g.company_count = (db.companies.filter (fun c => key c == g.key &&
        db.emissions.any (fun e => e.company_id == c.id && e.year == year))).length ∧
      g.total_scope_1 = ((Api.groupEmissions db key year g.key).map Emission.scope_1).sum ∧
      g.total_scope_2 = ((Api.groupEmissions db key year g.key).map
        (fun e => e.scope_2.getD 0)).sum ∧
      g.total_scope_3 = ((Api.groupEmissions db key year g.key).map Emission.scope_3).sum ∧
      g.total_emissions = ((Api.groupEmissions db key year g.key).map Emission.total).sum ∧
      Api.groupEmissions db key year g.key ≠ [] ∧
      g.avg_emissions = ((Api.groupEmissions db key year g.key).map Emission.total).sum /
        ((Api.groupEmissions db key year g.key).length : ℚ)) ∧
    (∀ (rawData : List Mock.RawRow) (myear : Int),
      (Mock.getSectors rawData myear).Pairwise
        (fun a b => b.total_emissions ≤ a.total_emissions) ∧
      ∀ g ∈ Mock.getSectors rawData myear,
        g.company_count = (Mock.sectorRows (rawData.filter
          (fun row => row.Year == myear)) g.sector).length ∧
        g.total_scope_1 = ((Mock.sectorRows (rawData.filter
          (fun row => row.Year == myear)) g.sector).map Mock.RawRow.Scope1).sum ∧
        g.total_scope_2 = ((Mock.sectorRows (rawData.filter
          (fun row => row.Year == myear)) g.sector).map
            (fun r => match r.Scope2 with | some v => v | none => 0)).sum ∧
        g.total_scope_3 = ((Mock.sectorRows (rawData.filter
          (fun row => row.Year == myear)) g.sector).map Mock.RawRow.Scope3).sum ∧
        g.total_emissions = ((Mock.sectorRows (rawData.filter
          (fun row => row.Year == myear)) g.sector).map Mock.rowTotal).sum ∧
        (((rawData.filter (fun row => row.Year == myear)).map
            (fun r => r.Company)).Nodup →
          g.company_count = (((Mock.sectorRows (rawData.filter
            (fun row => row.Year == myear)) g.sector).map
              (fun r => r.Company)).dedup).length)) := by
  refine ⟨?_, ?_, ?_⟩
  · rw [Api.rollup]
    have := sorted_mergeSort_of
      (fun a b : Api.GroupRow => decide (b.total_emissions ≤ a.total_emissions))
      (fun a b c hab hbc => by simp only [decide_eq_true_eq] at *; linarith)
      (fun a b => by simp [le_total])
      ((((Api.yearRows db year).map (fun r => key r.1)).dedup).map
        (Api.groupRow (Api.yearRows db year) key))
    exact this.imp (fun hab => by simpa using hab)
  · intro g hg
    rw [Api.rollup, List.mem_mergeSort] at hg
    rcases List.mem_map.mp hg with ⟨k, hk, rfl⟩
    have hkey : (Api.groupRow (Api.yearRows db year) key k).key = k := rfl
    rw [hkey]
    have hsnd : (((Api.yearRows db year).filter (fun r => key r.1 == k)).map Prod.snd) =
        Api.groupEmissions db key year k := Api.yearRows_key_map_snd h key year k
    have hlen : (Api.groupEmissions db key year k).length =
        ((Api.yearRows db year).filter (fun r => key r.1 == k)).length := by
      rw [← hsnd, List.length_map]
    have hsum : ∀ f : Emission → ℚ,
        (((Api.yearRows db year).filter (fun r => key r.1 == k)).map
          (fun r => f r.2)).sum = ((Api.groupEmissions db key year k).map f).sum := by
      intro f
      rw [show (fun r : Company × Emission => f r.2) = (f ∘ Prod.snd) from rfl,
        ← List.map_map, hsnd]
    have hids : (((Api.yearRows db year).filter (fun r => key r.1 == k)).map
        (fun r => r.1.id)) = ((Api.groupEmissions db key year k).map
          Emission.company_id) := by
      have hcg : ∀ r ∈ (Api.yearRows db year).filter (fun r => key r.1 == k),
          r.1.id = r.2.company_id := by
        intro r hr
        have hrj : r ∈ Api.joinRows db :=
          List.mem_of_mem_filter (List.mem_of_mem_filter hr)
        exact (Api.mem_joinRows hrj).2.2
      rw [List.map_congr_left hcg,
        show (fun r : Company × Emission => r.2.company_id) =
          (Emission.company_id ∘ Prod.snd) from rfl,
        ← List.map_map, hsnd]
    have hcount : (Api.groupRow (Api.yearRows db year) key k).company_count =
        (((Api.groupEmissions db key year k).map Emission.company_id).dedup).length := by
      show ((((Api.yearRows db year).filter (fun r => key r.1 == k)).map
        (fun r => r.1.id)).dedup).length = _
      rw [hids]
    have hne : Api.groupEmissions db key year k ≠ [] := by
      rcases List.mem_map.mp (List.mem_dedup.mp hk) with ⟨r, hr, hkr⟩
      have hrmem : r ∈ (Api.yearRows db year).filter (fun r => key r.1 == k) :=
        List.mem_filter.mpr ⟨hr, by simp [hkr]⟩
      intro hnil
      have h0 : ((Api.yearRows db year).filter (fun r => key r.1 == k)).length = 0 := by
        rw [← hlen, hnil]
        rfl
      have hpos := List.length_pos.mpr (List.ne_nil_of_mem hrmem)
      omega
    have hs1 : (Api.groupRow (Api.yearRows db year) key k).total_scope_1 =
        ((Api.groupEmissions db key year k).map Emission.scope_1).sum := by
      show (((Api.yearRows db year).filter (fun r => key r.1 == k)).map
        (fun r => Emission.scope_1 r.2)).sum = _
      exact hsum Emission.scope_1
    have hs2 : (Api.groupRow (Api.yearRows db year) key k).total_scope_2 =
        ((Api.groupEmissions db key year k).map (fun e => e.scope_2.getD 0)).sum := by
      show (((Api.yearRows db year).filter (fun r => key r.1 == k)).map
        (fun r => (fun e : Emission => e.scope_2.getD 0) r.2)).sum = _
      exact hsum (fun e => e.scope_2.getD 0)
    have hs3 : (Api.groupRow (Api.yearRows db year) key k).total_scope_3 =
        ((Api.groupEmissions db key year k).map Emission.scope_3).sum := by
      show (((Api.yearRows db year).filter (fun r => key r.1 == k)).map
        (fun r => Emission.scope_3 r.2)).sum = _
      exact hsum Emission.scope_3
    have hst : (Api.groupRow (Api.yearRows db year) key k).total_emissions =
        ((Api.groupEmissions db key year k).map Emission.total).sum := by
      show (((Api.yearRows db year).filter (fun r => key r.1 == k)).map
        (fun r => Emission.total r.2)).sum = _
      exact hsum Emission.total
    refine ⟨hcount, ?_, hs1, hs2, hs3, hst, hne, ?_⟩
    · rw [hcount]
      exact Api.groupEmissions_count h key year k
    · show (((Api.yearRows db year).filter (fun r => key r.1 == k)).map
        (fun r => Emission.total r.2)).sum /
          ((((Api.yearRows db year).filter (fun r => key r.1 == k)).length : Nat) : ℚ) = _
      rw [hsum Emission.total, hlen]
  · intro rawData myear
    have hspec := Mock.getSectors_spec rawData myear
    refine ⟨hspec.1, ?_⟩
    intro g hg
    have hag := hspec.2.2 g hg
    refine ⟨congrArg Mock.MockGroupRow.company_count hag,
      congrArg Mock.MockGroupRow.total_scope_1 hag,
      congrArg Mock.MockGroupRow.total_scope_2 hag,
      congrArg Mock.MockGroupRow.total_scope_3 hag,
      congrArg Mock.MockGroupRow.total_emissions hag, ?_⟩
    intro hnd
    have hsub : ((Mock.sectorRows (rawData.filter (fun row => row.Year == myear))
        g.sector).map (fun r => r.Company)).Nodup :=
      hnd.sublist ((List.filter_sublist _).map _)
    rw [hsub.dedup, List.length_map]
    exact congrArg Mock.MockGroupRow.company_count hag

/-- C6 witness: the theorem applied to the sample database (region key, 2022)
and to concrete mock raw data. -/
theorem claim_C6_witness :
    (Api.rollup sampleDb Company.region 2022).Pairwise
      (fun a b => b.total_emissions ≤ a.total_emissions) ∧
    (Mock.getSectors dupRawData 2022).Pairwise
      (fun a b => b.total_emissions ≤ a.total_emissions) :=
  ⟨(claim_C6 sampleDb sampleDb_valid Company.region 2022).1,
   ((claim_C6 sampleDb sampleDb_valid Company.region 2022).2.2 dupRawData 2022).1⟩

/-- C8: for every existing company, the emissions list of the company-detail
operation is strictly ascending in year: each entry's year is less than the
next entry's (hence no two entries share a year). -/
theorem claim_C8 (db : Db) (h : ValidDb db) (name : String) (d : Api.CompanyDetail)
    (hd : Api.getCompanyDetail db name = some d) :
    d.emissions.Chain' (fun a b => a.year < b.year) := by
  rw [Api.getCompanyDetail] at hd
  cases hf : Api.findCompany db name with
  | none => rw [hf] at hd; cases hd
  | some c =>
    rw [hf] at hd
    simp only [Option.some.injEq] at hd
    subst hd
    simp only [Api.emissionsQuery]
    set L := Api.companyEmissions db c.id with hL
    have hsorted : (L.mergeSort (fun a b => a.year ≤ b.year)).Pairwise
        (fun a b => a.year ≤ b.year) := by
      have := sorted_mergeSort_of (fun a b : Emission => decide (a.year ≤ b.year))
        (fun a b c hab hbc => by simp only [decide_eq_true_eq] at *; omega)
        (fun a b => by simp [Int.le_total]) L
      exact this.imp (fun hab => by simpa using hab)
    have hperm : List.Perm ((L.mergeSort (fun a b => a.year ≤ b.year)).map Emission.year)
        (L.map Emission.year) := (List.mergeSort_perm L _).map _
    have hnd : ((L.mergeSort (fun a b => a.year ≤ b.year)).map Emission.year).Nodup :=
      hperm.nodup_iff.mpr (Api.companyEmissions_years_nodup h c.id)
    have hne : (L.mergeSort (fun a b => a.year ≤ b.year)).Pairwise
        (fun a b => a.year ≠ b.year) := (List.pairwise_map.mp hnd)
    have hlt : (L.mergeSort (fun a b => a.year ≤ b.year)).Pairwise
        (fun a b => a.year < b.year) :=
      (hsorted.and hne).imp (fun hab => lt_of_le_of_ne hab.1 hab.2)
    refine List.Pairwise.chain' ?_
    rw [List.pairwise_map]
    exact hlt.imp (fun hab => hab)

/-- C8 witness: strict ascending years on the sample database. -/
theorem claim_C8_witness :
    ∃ d, Api.getCompanyDetail sampleDb "Climate Corp" = some d ∧
      d.emissions.Chain' (fun a b => a.year < b.year) := by
  cases hd : Api.getCompanyDetail sampleDb "Climate Corp" with
  | none => exact absurd hd (by decide)
  | some d => exact ⟨d, rfl, claim_C8 sampleDb sampleDb_valid "Climate Corp" d hd⟩

namespace Etl

theorem companyStep_preserves {acc : List CompanyIns} {row : String → Option String}
    {n : String} (hn : n ∈ acc.map (fun c => c.name)) :
    n ∈ (companyStep acc row).map (fun c => c.name) := by
  rw [companyStep]
  by_cases hany : acc.any (fun c => c.name == (row "Company").getD "") = true
  · rw [if_pos hany]
    exact hn
  · rw [if_neg hany, List.map_append]
    exact List.mem_append_left _ hn

theorem foldl_companyStep_preserves (rows : List (String → Option String)) :
    ∀ (acc : List CompanyIns) (n : String), n ∈ acc.map (fun c => c.name) →
      n ∈ (rows.foldl companyStep acc).map (fun c => c.name) := by
  induction rows with
  | nil => exact fun acc n hn => hn
  | cons r rows ih =>
    intro acc n hn
    exact ih _ n (companyStep_preserves hn)

theorem foldl_companyStep_mem (rows : List (String → Option String)) :
    ∀ acc : List CompanyIns, ∀ row ∈ rows,
      ((row "Company").getD "") ∈
        (rows.foldl companyStep acc).map (fun c => c.name) := by
  induction rows with
  | nil =>
    intro acc row h
    cases h
  | cons r rows ih =>
    intro acc row hrow
    rcases List.mem_cons.mp hrow with hre | hrow
    · subst hre
      refine foldl_companyStep_preserves rows _ _ ?_
      rw [companyStep]
      by_cases hany : acc.any (fun c => c.name == (row "Company").getD "") = true
      · rw [if_pos hany]
        rcases List.any_eq_true.mp hany with ⟨c, hc, hcname⟩
        simp only [beq_iff_eq] at hcname
        exact List.mem_map.mpr ⟨c, hc, hcname⟩
      · rw [if_neg hany, List.map_append]
        refine List.mem_append_right _ ?_
        simp [mkCompany]
    · exact ih _ row hrow

end Etl

/-- C9: CSV rows whose Company cell is blank contribute to neither the company
set nor the emissions set; for kept rows, blank fields default to sector
"Other", region "Unknown", ownership "Public", baseline_year 2020,
net_zero_year 2050 (spliced as SQL numeric literals), scope_1 0, scope_3 0,
and scope_2 the SQL literal NULL. -/
theorem claim_C9 :
    (∀ (headers : List String) (pre post : List String) (line : String),
      Etl.buildRow headers (Etl.splitCells line) "Company" = none →
      Etl.extractCompanies (Etl.parseRows headers (pre ++ line :: post)) =
        Etl.extractCompanies (Etl.parseRows headers (pre ++ post)) ∧
      Etl.extractEmissions (Etl.parseRows headers (pre ++ line :: post)) =
        Etl.extractEmissions (Etl.parseRows headers (pre ++ post))) ∧
    (∀ row : String → Option String,
      (row "Sector" = none → (Etl.mkCompany row).sector = some "Other") ∧
      (row "Region" = none → (Etl.mkCompany row).region = some "Unknown") ∧
      (row "Ownership" = none → (Etl.mkCompany row).ownership = some "Public") ∧
      (row "Baseline Year" = none → (Etl.mkCompany row).baseline_year = some "2020") ∧
      (row "Net Zero Year" = none → (Etl.mkCompany row).net_zero_year = some "2050")) ∧
    (∀ (row : String → Option String) (y : String),
      Etl.cleanValue (row "Year") none = some y →
      ∃ e, Etl.mkEmission row = some e ∧ e.year = y ∧
        (row "Scope 1" = none → e.scope_1 = "0") ∧
        (row "Scope 2" = none → e.scope_2 = none) ∧
        (row "Scope 3" = none → e.scope_3 = "0")) := by
  refine ⟨?_, ?_, ?_⟩
  · intro headers pre post line hblank
    have hrows : Etl.parseRows headers (pre ++ line :: post) =
        Etl.parseRows headers (pre ++ post) := by
      rw [Etl.parseRows, Etl.parseRows, List.map_append, List.map_append,
        List.map_cons, List.filter_append, List.filter_append, List.filter_cons]
      simp only [hblank, Option.isSome_none, Bool.false_eq_true, if_false]
    exact ⟨by rw [hrows], by rw [hrows]⟩
  · intro row
    refine ⟨fun h => ?_, fun h => ?_, fun h => ?_, fun h => ?_, fun h => ?_⟩ <;>
      simp [Etl.mkCompany, Etl.cleanValue, h]
  · intro row y hy
    refine ⟨{ company := (row "Company").getD "", year := y,
              scope_1 := (Etl.cleanValue (row "Scope 1") (some "0")).getD "0",
              scope_2 := Etl.cleanValue (row "Scope 2") none,
              scope_3 := (Etl.cleanValue (row "Scope 3") (some "0")).getD "0" },
      ?_, rfl, fun h => ?_, fun h => ?_, fun h => ?_⟩
    · rw [Etl.mkEmission.eq_def, hy]
    · simp [Etl.cleanValue, h]
    · simp [Etl.cleanValue, h]
    · simp [Etl.cleanValue, h]

/-- A concrete kept row used by the C9 witness: Company "Acme", blank Sector,
Year 2020. -/
def rowW : String → Option String :=
  Etl.buildRow ["Company", "Sector", "Year"] (Etl.splitCells "Acme,,2020")

/-- C9 witness: the theorem applied to a concrete blank-Company line, a
concrete blank Sector and concrete emission defaults. -/
theorem claim_C9_witness :
    (Etl.extractCompanies (Etl.parseRows ["Company", "Sector", "Year"]
        ([] ++ ",Tech,2020" :: ["Acme,Tech,2020"])) =
      Etl.extractCompanies (Etl.parseRows ["Company", "Sector", "Year"]
        ([] ++ ["Acme,Tech,2020"]))) ∧
    (Etl.mkCompany rowW).sector = some "Other" ∧
    ∃ e, Etl.mkEmission rowW = some e ∧ e.year = "2020" ∧
      (rowW "Scope 1" = none → e.scope_1 = "0") ∧
      (rowW "Scope 2" = none → e.scope_2 = none) ∧
      (rowW "Scope 3" = none → e.scope_3 = "0") := by
  refine ⟨(claim_C9.1 ["Company", "Sector", "Year"] [] ["Acme,Tech,2020"]
      ",Tech,2020" (by decide)).1,
    (claim_C9.2.1 rowW).1 (by decide), ?_⟩
  exact claim_C9.2.2 rowW "2020" (by decide)

/-- C10: a kept CSV row (non-blank Company) whose Year cell is blank produces
no emissions insert, while its company name still reaches the generated
company set; consequently the emissions inserts are strictly fewer than the
kept CSV rows. -/
theorem claim_C10 (headers : List String) (dataLines : List String)
    (row : String → Option String) (hrow : row ∈ Etl.parseRows headers dataLines)
    (hyear : Etl.cleanValue (row "Year") none = none) :
    Etl.mkEmission row = none ∧
    ((row "Company").getD "") ∈
      (Etl.extractCompanies (Etl.parseRows headers dataLines)).map
        (fun c => c.name) ∧
    (Etl.extractEmissions (Etl.parseRows headers dataLines)).length <
      (Etl.parseRows headers dataLines).length := by
  have hnone : Etl.mkEmission row = none := by
    rw [Etl.mkEmission.eq_def, hyear]
  exact ⟨hnone,
    Etl.foldl_companyStep_mem (Etl.parseRows headers dataLines) [] row hrow,
    length_filterMap_lt hrow hnone⟩

/-- A concrete kept row with a blank Year used by the C10 witness. -/
def rowY : String → Option String :=
  Etl.buildRow ["Company", "Year"] (Etl.splitCells "Acme,")

/-- C10 witness: the theorem applied to a one-row CSV whose Year is blank. -/
theorem claim_C10_witness :
    Etl.mkEmission rowY = none ∧
    ((rowY "Company").getD "") ∈
      (Etl.extractCompanies (Etl.parseRows ["Company", "Year"] ["Acme,"])).map
        (fun c => c.name) ∧
    (Etl.extractEmissions (Etl.parseRows ["Company", "Year"] ["Acme,"])).length <
      (Etl.parseRows ["Company", "Year"] ["Acme,"]).length := by
  have hlist : Etl.parseRows ["Company", "Year"] ["Acme,"] =
      [Etl.buildRow ["Company", "Year"] (Etl.splitCells "Acme,")] := rfl
  refine claim_C10 ["Company", "Year"] ["Acme,"] rowY ?_ (by decide)
  rw [hlist]
  exact List.mem_singleton_self _

end Dash
